import Mathlib

/-!
Verification of the event-bus core of the `python-agent-template` repository.

The development shallowly embeds the Python modules

  * `src/agent_project/correlation.py`
  * `src/agent_project/domain/events/base.py`
  * `src/agent_project/infrastructure/event_bus/ports.py`
  * `src/agent_project/infrastructure/event_bus/adapters/in_memory.py`
  * `src/agent_project/infrastructure/event_bus/adapters/redis.py`

as executable Lean definitions and proves the spec's testable properties
about them.  Machinery external to the repository (the Python `json`
module, the Redis transport) is modelled explicitly: JSON by a concrete
printer/parser pair over a JSON value type, the transport by an oracle
recording the outcome of each network operation.
-/

namespace AgentBus

/-! ### JSON documents

`JValue` is the value universe of the Python `json` module restricted to
what this repository's events serialize to: null, booleans, integers,
strings, arrays and objects (floats never occur in the event documents).
Objects are ordered key/value lists, matching Python dicts, whose
insertion order `json.dumps`/`json.loads` preserves. -/

inductive JValue where
  | jnull : JValue
  | jbool (b : Bool) : JValue
  | jint (n : Int) : JValue
  | jstr (s : String) : JValue
  | jarr (items : List JValue) : JValue
  | jobj (fields : List (String × JValue)) : JValue
deriving Inhabited

/-- Key lookup in a JSON object's field list (first match), the model of
`d[key]` / `key in d` on a deserialized Python dict. -/
def jlookup (fields : List (String × JValue)) (k : String) : Option JValue :=
  match fields with
  | [] => none
  | (k', v) :: rest => if k' = k then some v else jlookup rest k

/-! ### The printer: a model of `json.dumps` (default options)

`json.dumps` renders with separators `", "` and `": "`.  Its string
escaping covers `"`, `\` and control characters; the model renders other
characters verbatim (Python's default additionally `\u`-escapes
non-ASCII characters, which changes the bytes but not the round-trip
property modelled here). -/

/-- Lower-case hexadecimal digit for `n < 16`. -/
def hexDigitCh (n : Nat) : Char :=
  if n < 10 then Char.ofNat (48 + n) else Char.ofNat (87 + n)

/-- Escape one character of a JSON string body. -/
def escChar (c : Char) : List Char :=
  if c = '"' then ['\\', '"']
  else if c = '\\' then ['\\', '\\']
  else if c.toNat < 32 then
    ['\\', 'u', hexDigitCh (c.toNat / 4096 % 16), hexDigitCh (c.toNat / 256 % 16),
     hexDigitCh (c.toNat / 16 % 16), hexDigitCh (c.toNat % 16)]
  else [c]

/-- Render a string literal, quotes included. -/
def encStr (s : String) : List Char :=
  '"' :: (s.data.flatMap escChar ++ ['"'])

/-- Decimal digits of `n`, most significant first, fuel-bounded (the fuel
only needs to exceed `n`, see `natDigs`). -/
def natDigsF : Nat → Nat → List Char
  | 0, _ => []
  | fuel + 1, n =>
    if n < 10 then [Char.ofNat (48 + n)]
    else natDigsF fuel (n / 10) ++ [Char.ofNat (48 + n % 10)]

/-- Decimal digits of `n`, most significant first. -/
def natDigs (n : Nat) : List Char :=
  natDigsF (n + 1) n

/-- Render an integer the way Python prints `int`. -/
def encInt (n : Int) : List Char :=
  if n < 0 then '-' :: natDigs n.natAbs else natDigs n.natAbs

mutual

/-- Render a JSON value (model of `json.dumps` with default separators). -/
def encVal : JValue → List Char
  | .jnull => ['n', 'u', 'l', 'l']
  | .jbool true => ['t', 'r', 'u', 'e']
  | .jbool false => ['f', 'a', 'l', 's', 'e']
  | .jint n => encInt n
  | .jstr s => encStr s
  | .jarr items => '[' :: (encItems items ++ [']'])
  | .jobj fields => '{' :: (encFields fields ++ ['}'])

/-- Render the comma-separated items of an array. -/
def encItems : List JValue → List Char
  | [] => []
  | v :: vs => encVal v ++ encItemsRest vs

/-- Render the remaining items of an array, each preceded by `", "`. -/
def encItemsRest : List JValue → List Char
  | [] => []
  | v :: vs => ',' :: ' ' :: (encVal v ++ encItemsRest vs)

/-- Render the comma-separated members of an object. -/
def encFields : List (String × JValue) → List Char
  | [] => []
  | (k, v) :: ms => encStr k ++ ':' :: ' ' :: (encVal v ++ encFieldsRest ms)

/-- Render the remaining members of an object, each preceded by `", "`. -/
def encFieldsRest : List (String × JValue) → List Char
  | [] => []
  | (k, v) :: ms => ',' :: ' ' :: (encStr k ++ ':' :: ' ' :: (encVal v ++ encFieldsRest ms))

end

/-- The model of `json.dumps` on a document. -/
def dumps (v : JValue) : String :=
  String.mk (encVal v)

/-! ### The parser: a model of `json.loads` on the documents above -/

/-- JSON whitespace. -/
def isSpaceCh (c : Char) : Bool :=
  c == ' ' || c == '\t' || c == '\n' || c == '\r'

/-- Drop leading whitespace. -/
def dropSpace : List Char → List Char
  | [] => []
  | c :: cs => if isSpaceCh c then dropSpace cs else c :: cs

/-- Decimal digit test. -/
def isDigitCh (c : Char) : Bool :=
  '0' ≤ c && c ≤ '9'

/-- Split a leading run of decimal digits from the input. -/
def grabDigits : List Char → List Char × List Char
  | [] => ([], [])
  | c :: cs =>
    if isDigitCh c then
      let (ds, rest) := grabDigits cs
      (c :: ds, rest)
    else ([], c :: cs)

/-- Numeric value of a digit run. -/
def digsToNat (ds : List Char) : Nat :=
  ds.foldl (fun acc c => acc * 10 + (c.toNat - 48)) 0

/-- Numeric value of a hex digit, if any. -/
def hexVal (c : Char) : Option Nat :=
  if '0' ≤ c && c ≤ '9' then some (c.toNat - 48)
  else if 'a' ≤ c && c ≤ 'f' then some (c.toNat - 97 + 10)
  else if 'A' ≤ c && c ≤ 'F' then some (c.toNat - 65 + 10)
  else none

/-- Decode one escape sequence (the input starts after the backslash),
returning the decoded character and the remaining input. -/
def unescape1 : List Char → Option (Char × List Char)
  | [] => none
  | e :: rest =>
    if e = 'u' then
      match rest with
      | a :: b :: c2 :: d :: rest' =>
        match hexVal a, hexVal b, hexVal c2, hexVal d with
        | some va, some vb, some vc, some vd =>
          some (Char.ofNat (((va * 16 + vb) * 16 + vc) * 16 + vd), rest')
        | _, _, _, _ => none
      | _ => none
    else if e = '"' ∨ e = '\\' ∨ e = '/' then some (e, rest)
    else if e = 'n' then some ('\n', rest)
    else if e = 't' then some ('\t', rest)
    else if e = 'r' then some ('\r', rest)
    else if e = 'b' then some (Char.ofNat 8, rest)
    else if e = 'f' then some (Char.ofNat 12, rest)
    else none

/-- Scan the body of a string literal up to the closing quote, undoing
escapes; `acc` holds the characters read so far, reversed.  Fuel-bounded:
one unit of fuel per produced or closing character. -/
def scanStr : Nat → List Char → List Char → Option (List Char × List Char)
  | 0, _, _ => none
  | _, _, [] => none
  | fuel + 1, acc, c :: rest =>
    if c = '"' then some (acc.reverse, rest)
    else if c = '\\' then
      match unescape1 rest with
      | some (d, rest') => scanStr fuel (d :: acc) rest'
      | none => none
    else scanStr fuel (c :: acc) rest

/-- Scan an integer literal: an optional sign followed by a digit run. -/
def scanInt : List Char → Option (Int × List Char)
  | [] => none
  | c :: cs =>
    if c = '-' then
      match grabDigits cs with
      | ([], _) => none
      | (ds, rest') => some (-(digsToNat ds : Int), rest')
    else
      match grabDigits (c :: cs) with
      | ([], _) => none
      | (ds, rest') => some ((digsToNat ds : Int), rest')

/-- Strip an expected literal from the front of the input. -/
def stripLit : List Char → List Char → Option (List Char)
  | [], s => some s
  | _ :: _, [] => none
  | l :: ls, c :: cs => if c = l then stripLit ls cs else none

mutual

/-- Parse one JSON value, fuel-bounded (model of `json.loads`). -/
def scanVal : Nat → List Char → Option (JValue × List Char)
  | 0, _ => none
  | fuel + 1, cs =>
    match dropSpace cs with
    | [] => none
    | c :: rest =>
      if c = 'n' then
        match stripLit ['u', 'l', 'l'] rest with
        | some r => some (.jnull, r)
        | none => none
      else if c = 't' then
        match stripLit ['r', 'u', 'e'] rest with
        | some r => some (.jbool true, r)
        | none => none
      else if c = 'f' then
        match stripLit ['a', 'l', 's', 'e'] rest with
        | some r => some (.jbool false, r)
        | none => none
      else if c = '"' then
        match scanStr fuel [] rest with
        | some (body, r) => some (.jstr (String.mk body), r)
        | none => none
      else if c = '[' then
        match dropSpace rest with
        | [] => none
        | c' :: rest' =>
          if c' = ']' then some (.jarr [], rest')
          else
            match scanItems fuel (c' :: rest') with
            | some (vs, r) => some (.jarr vs, r)
            | none => none
      else if c = '{' then
        match dropSpace rest with
        | [] => none
        | c' :: rest' =>
          if c' = '}' then some (.jobj [], rest')
          else
            match scanFields fuel (c' :: rest') with
            | some (ms, r) => some (.jobj ms, r)
            | none => none
      else if c = '-' ∨ isDigitCh c then
        match scanInt (c :: rest) with
        | some (n, r) => some (.jint n, r)
        | none => none
      else none

/-- Parse the nonempty item list of an array, up to and including `]`. -/
def scanItems : Nat → List Char → Option (List JValue × List Char)
  | 0, _ => none
  | fuel + 1, cs =>
    match scanVal fuel cs with
    | none => none
    | some (v, rest) =>
      match dropSpace rest with
      | [] => none
      | c :: rest' =>
        if c = ',' then
          match scanItems fuel rest' with
          | some (vs, r) => some (v :: vs, r)
          | none => none
        else if c = ']' then some ([v], rest')
        else none

/-- Parse the nonempty member list of an object, up to and including `}`. -/
def scanFields : Nat → List Char → Option (List (String × JValue) × List Char)
  | 0, _ => none
  | fuel + 1, cs =>
    match dropSpace cs with
    | [] => none
    | c :: rest =>
      if c = '"' then
        match scanStr fuel [] rest with
        | none => none
        | some (key, r1) =>
          match dropSpace r1 with
          | [] => none
          | c1 :: r2 =>
            if c1 = ':' then
              match scanVal fuel r2 with
              | none => none
              | some (v, r3) =>
                match dropSpace r3 with
                | [] => none
                | c2 :: r4 =>
                  if c2 = ',' then
                    match scanFields fuel r4 with
                    | some (ms, r5) => some ((String.mk key, v) :: ms, r5)
                    | none => none
                  else if c2 = '}' then some ([(String.mk key, v)], r4)
                  else none
            else none
      else none

end

/-- The model of `json.loads`: parse a complete document; trailing content
other than whitespace is an error. -/
def loads (s : String) : Option JValue :=
  match scanVal (s.toList.length + 1) s.toList with
  | some (v, rest) => if dropSpace rest = [] then some v else none
  | none => none

/-- An input that cannot extend an integer literal: empty, or headed by a
non-digit. -/
def intStop : List Char → Bool
  | [] => true
  | c :: _ => !(isDigitCh c)

/-! ### Codec round trip, part 1: digits and integers -/

theorem strMk_toList (s : String) : String.mk s.toList = s := by
  cases s
  rfl

theorem digitCh_spec (d : Nat) (h : d < 10) :
    isDigitCh (Char.ofNat (48 + d)) = true ∧ (Char.ofNat (48 + d)).toNat = 48 + d := by
  interval_cases d <;> exact ⟨by decide, by decide⟩

theorem digit_ne {c : Char} (h : isDigitCh c = true) (c' : Char)
    (h' : isDigitCh c' = false) : c ≠ c' := by
  intro he
  rw [he, h'] at h
  cases h

theorem spaceCh_cases {c : Char} (h : isSpaceCh c = true) :
    c = ' ' ∨ c = '\t' ∨ c = '\n' ∨ c = '\r' := by
  simp only [isSpaceCh, Bool.or_eq_true, beq_iff_eq] at h
  tauto

theorem digit_not_space {c : Char} (h : isDigitCh c = true) : isSpaceCh c = false := by
  cases hs : isSpaceCh c
  · rfl
  · rcases spaceCh_cases hs with rfl | rfl | rfl | rfl <;> exact absurd h (by decide)

theorem natDigsF_digits : ∀ (fuel n : Nat), ∀ c ∈ natDigsF fuel n, isDigitCh c = true := by
  intro fuel
  induction fuel with
  | zero => intro n c hc; simp [natDigsF] at hc
  | succ f ih =>
    intro n c hc
    simp only [natDigsF] at hc
    by_cases h : n < 10
    · rw [if_pos h] at hc
      simp only [List.mem_singleton] at hc
      subst hc
      exact (digitCh_spec n h).1
    · rw [if_neg h] at hc
      rcases List.mem_append.mp hc with h1 | h2
      · exact ih _ c h1
      · simp only [List.mem_singleton] at h2
        subst h2
        exact (digitCh_spec _ (Nat.mod_lt _ (by omega))).1

theorem natDigsF_ne_nil (fuel n : Nat) : natDigsF (fuel + 1) n ≠ [] := by
  simp only [natDigsF]
  by_cases h : n < 10 <;> simp [h]

theorem digsToNat_append (ds : List Char) (c : Char) :
    digsToNat (ds ++ [c]) = digsToNat ds * 10 + (c.toNat - 48) := by
  simp [digsToNat, List.foldl_append]

theorem digsToNat_natDigsF : ∀ fuel n, n < fuel → digsToNat (natDigsF fuel n) = n := by
  intro fuel
  induction fuel with
  | zero => intro n hn; omega
  | succ f ih =>
    intro n hn
    simp only [natDigsF]
    by_cases h : n < 10
    · rw [if_pos h]
      have h2 := (digitCh_spec n h).2
      simp [digsToNat, h2]
    · rw [if_neg h, digsToNat_append, ih (n / 10) (by omega)]
      have h2 := (digitCh_spec (n % 10) (Nat.mod_lt _ (by omega))).2
      rw [h2]
      omega

theorem natDigs_cons (n : Nat) : ∃ c t, natDigs n = c :: t ∧ isDigitCh c = true := by
  match h : natDigs n with
  | [] => exact absurd h (natDigsF_ne_nil n n)
  | c :: t =>
    refine ⟨c, t, rfl, natDigsF_digits (n + 1) n c ?_⟩
    rw [show natDigsF (n + 1) n = natDigs n from rfl, h]
    simp

theorem natDigs_digits (n : Nat) : ∀ c ∈ natDigs n, isDigitCh c = true :=
  natDigsF_digits (n + 1) n

theorem digsToNat_natDigs (n : Nat) : digsToNat (natDigs n) = n :=
  digsToNat_natDigsF (n + 1) n (by omega)

theorem grabDigits_stop {cs : List Char} (h : intStop cs = true) :
    grabDigits cs = ([], cs) := by
  match cs with
  | [] => rfl
  | c :: t =>
    simp only [intStop, Bool.not_eq_true'] at h
    simp [grabDigits, h]

theorem grabDigits_run : ∀ (ds rest : List Char), (∀ c ∈ ds, isDigitCh c = true) →
    intStop rest = true → grabDigits (ds ++ rest) = (ds, rest) := by
  intro ds
  induction ds with
  | nil => intro rest _ hr; simpa using grabDigits_stop hr
  | cons c t ih =>
    intro rest hall hr
    have hc : isDigitCh c = true := hall c (by simp)
    simp [grabDigits, hc, ih rest (fun x hx => hall x (by simp [hx])) hr]

theorem scanInt_encInt (n : Int) (rest : List Char) (hr : intStop rest = true) :
    scanInt (encInt n ++ rest) = some (n, rest) := by
  obtain ⟨c0, t0, hd, hc0⟩ := natDigs_cons n.natAbs
  have hrun : grabDigits (natDigs n.natAbs ++ rest) = (natDigs n.natAbs, rest) :=
    grabDigits_run _ rest (natDigs_digits n.natAbs) hr
  have hval : digsToNat (natDigs n.natAbs) = n.natAbs := digsToNat_natDigs n.natAbs
  by_cases hn : n < 0
  · simp only [encInt, if_pos hn, List.cons_append, scanInt, if_pos rfl]
    rw [hrun, hd]
    have : -(digsToNat (c0 :: t0) : Int) = n := by
      rw [← hd, hval]; omega
    simp [this]
  · simp only [encInt, if_neg hn]
    rw [hd, List.cons_append, scanInt]
    rw [if_neg (digit_ne hc0 '-' (by decide)), ← List.cons_append, ← hd, hrun, hd]
    have : (digsToNat (c0 :: t0) : Int) = n := by
      rw [← hd, hval]; omega
    simp [this]

/-! ### Codec round trip, part 2: strings, whitespace, heads -/

theorem hexVal_hexDigitCh (d : Nat) (h : d < 16) : hexVal (hexDigitCh d) = some d := by
  interval_cases d <;> decide

theorem unescape1_escChar (c : Char) (h3 : c.toNat < 32) (rest : List Char) :
    unescape1 ('u' :: hexDigitCh (c.toNat / 4096 % 16) :: hexDigitCh (c.toNat / 256 % 16)
      :: hexDigitCh (c.toNat / 16 % 16) :: hexDigitCh (c.toNat % 16) :: rest)
      = some (c, rest) := by
  simp only [unescape1, if_pos rfl]
  rw [hexVal_hexDigitCh _ (Nat.mod_lt _ (by omega)),
    hexVal_hexDigitCh _ (Nat.mod_lt _ (by omega)),
    hexVal_hexDigitCh _ (Nat.mod_lt _ (by omega)),
    hexVal_hexDigitCh _ (Nat.mod_lt _ (by omega))]
  have harith : ((c.toNat / 4096 % 16 * 16 + c.toNat / 256 % 16) * 16
      + c.toNat / 16 % 16) * 16 + c.toNat % 16 = c.toNat := by omega
  simp only [harith, Char.ofNat_toNat]
  simp

theorem scanStr_escChar (c : Char) (fuel : Nat) (acc rest : List Char) :
    scanStr (fuel + 1) acc (escChar c ++ rest) = scanStr fuel (c :: acc) rest := by
  by_cases h1 : c = '"'
  · subst h1; rfl
  · by_cases h2 : c = '\\'
    · subst h2; rfl
    · by_cases h3 : c.toNat < 32
      · simp only [escChar, if_neg h1, if_neg h2, if_pos h3, List.cons_append,
          List.nil_append]
        simp only [scanStr, if_neg (by decide : ¬('\\' = '"')), if_pos rfl,
          unescape1_escChar c h3]
        rw [if_pos trivial]
      · simp only [escChar, if_neg h1, if_neg h2, if_neg h3, List.cons_append,
          List.nil_append, scanStr, if_neg h1, if_neg h2]

theorem scanStr_encBody : ∀ (cs : List Char) (fuel : Nat) (acc rest : List Char),
    cs.length < fuel →
    scanStr fuel acc (cs.flatMap escChar ++ '"' :: rest) = some (acc.reverse ++ cs, rest) := by
  intro cs
  induction cs with
  | nil =>
    intro fuel acc rest hf
    match fuel, hf with
    | f + 1, _ =>
      simp only [List.flatMap_nil, List.nil_append, List.append_nil]
      rfl
  | cons c t ih =>
    intro fuel acc rest hf
    match fuel, hf with
    | f + 1, hf =>
      rw [List.flatMap_cons, List.append_assoc, scanStr_escChar,
        ih f (c :: acc) rest (by simpa using Nat.lt_of_succ_lt_succ hf)]
      simp

/-- Each character escapes to at least one character. -/
theorem escChar_len (c : Char) : 1 ≤ (escChar c).length := by
  by_cases h1 : c = '"'
  · simp [escChar, h1]
  · by_cases h2 : c = '\\'
    · simp [escChar, h1, h2]
    · by_cases h3 : c.toNat < 32 <;> simp [escChar, h1, h2, h3]

theorem flatMap_escChar_len (cs : List Char) : cs.length ≤ (cs.flatMap escChar).length := by
  induction cs with
  | nil => simp
  | cons c t ih =>
    rw [List.flatMap_cons, List.length_append, List.length_cons]
    have := escChar_len c
    omega

theorem dropSpace_cons_false {c : Char} (h : isSpaceCh c = false) (t : List Char) :
    dropSpace (c :: t) = c :: t := by
  simp [dropSpace, h]

theorem dropSpace_sp : ∀ (pre : List Char), (∀ c ∈ pre, isSpaceCh c = true) →
    ∀ x : List Char, dropSpace (pre ++ x) = dropSpace x := by
  intro pre
  induction pre with
  | nil => intro _ x; rfl
  | cons c t ih =>
    intro h x
    have hc : isSpaceCh c = true := h c (by simp)
    simp only [List.cons_append, dropSpace, hc, if_pos]
    exact ih (fun y hy => h y (by simp [hy])) x

theorem stripLit_pref : ∀ (ls rest : List Char), stripLit ls (ls ++ rest) = some rest := by
  intro ls
  induction ls with
  | nil => intro rest; rfl
  | cons l t ih => intro rest; simp [stripLit, ih]

theorem intStop_cons {c : Char} (h : isDigitCh c = false) (t : List Char) :
    intStop (c :: t) = true := by
  simp [intStop, h]

theorem encVal_head (v : JValue) :
    ∃ c t, encVal v = c :: t ∧ isSpaceCh c = false ∧ c ≠ ']' ∧ c ≠ '}' := by
  cases v with
  | jnull => refine ⟨'n', _, rfl, ?_, ?_, ?_⟩ <;> decide
  | jbool b =>
    cases b
    · refine ⟨'f', _, rfl, ?_, ?_, ?_⟩ <;> decide
    · refine ⟨'t', _, rfl, ?_, ?_, ?_⟩ <;> decide
  | jstr s => refine ⟨'"', _, rfl, ?_, ?_, ?_⟩ <;> decide
  | jarr items => refine ⟨'[', _, rfl, ?_, ?_, ?_⟩ <;> decide
  | jobj fields => refine ⟨'{', _, rfl, ?_, ?_, ?_⟩ <;> decide
  | jint n =>
    by_cases hn : n < 0
    · refine ⟨'-', natDigs n.natAbs, ?_, by decide, by decide, by decide⟩
      simp [encVal, encInt, hn]
    · obtain ⟨c0, t0, hd, hc0⟩ := natDigs_cons n.natAbs
      refine ⟨c0, t0, ?_, digit_not_space hc0,
        digit_ne hc0 ']' (by decide), digit_ne hc0 '}' (by decide)⟩
      simp [encVal, encInt, hn, hd]

theorem intStop_itemsRest (vs : List JValue) (rest : List Char) :
    intStop (encItemsRest vs ++ ']' :: rest) = true := by
  cases vs with
  | nil => simp [encItemsRest, intStop, isDigitCh]
  | cons x xs => simp [encItemsRest, intStop, isDigitCh]

theorem intStop_fieldsRest (ms : List (String × JValue)) (rest : List Char) :
    intStop (encFieldsRest ms ++ '}' :: rest) = true := by
  cases ms with
  | nil => simp [encFieldsRest, intStop, isDigitCh]
  | cons m ms' =>
    obtain ⟨k, v⟩ := m
    simp [encFieldsRest, intStop, isDigitCh]

/-! ### Codec round trip, part 3: the main induction -/

theorem spOne : ∀ c ∈ [' '], isSpaceCh c = true := by
  intro c hc
  rw [List.mem_singleton] at hc
  subst hc
  rfl

theorem listSizeOf_pos {α : Type} [SizeOf α] (l : List α) : 0 < sizeOf l := by
  cases l with
  | nil => simp
  | cons a t =>
    simp only [List.cons.sizeOf_spec]
    omega

mutual

theorem rtVal : ∀ (v : JValue) (fuel : Nat) (pre rest : List Char),
    (∀ c ∈ pre, isSpaceCh c = true) → (encVal v).length < fuel → intStop rest = true →
    scanVal fuel (pre ++ (encVal v ++ rest)) = some (v, rest)
  | .jnull, fuel, pre, rest, hpre, hf, _ => by
    cases fuel with
    | zero => exact absurd hf (by omega)
    | succ f =>
      simp only [scanVal]
      rw [show (encVal JValue.jnull ++ rest : List Char) = 'n' :: ('u' :: 'l' :: 'l' :: rest)
          from rfl,
        dropSpace_sp pre hpre, dropSpace_cons_false (by decide)]
      simp [stripLit]
  | .jbool true, fuel, pre, rest, hpre, hf, _ => by
    cases fuel with
    | zero => exact absurd hf (by omega)
    | succ f =>
      simp only [scanVal]
      rw [show (encVal (JValue.jbool true) ++ rest : List Char)
          = 't' :: ('r' :: 'u' :: 'e' :: rest) from rfl,
        dropSpace_sp pre hpre, dropSpace_cons_false (by decide)]
      simp [stripLit]
  | .jbool false, fuel, pre, rest, hpre, hf, _ => by
    cases fuel with
    | zero => exact absurd hf (by omega)
    | succ f =>
      simp only [scanVal]
      rw [show (encVal (JValue.jbool false) ++ rest : List Char)
          = 'f' :: ('a' :: 'l' :: 's' :: 'e' :: rest) from rfl,
        dropSpace_sp pre hpre, dropSpace_cons_false (by decide)]
      simp [stripLit]
  | .jstr s, fuel, pre, rest, hpre, hf, _ => by
    cases fuel with
    | zero => exact absurd hf (by omega)
    | succ f =>
      simp only [scanVal]
      rw [show (encVal (JValue.jstr s) ++ rest : List Char)
          = '"' :: (s.data.flatMap escChar ++ ('"' :: rest)) from by
          simp [encVal, encStr],
        dropSpace_sp pre hpre, dropSpace_cons_false (by decide)]
      have hb : scanStr f [] (s.data.flatMap escChar ++ ('"' :: rest))
          = some (s.data, rest) := by
        have h2 := flatMap_escChar_len s.data
        have hlen : s.data.length < f := by
          simp only [encVal, encStr, List.length_cons, List.length_append] at hf
          omega
        simpa using scanStr_encBody s.data f [] rest hlen
      simp only [hb]
      simp
  | .jint n, fuel, pre, rest, hpre, hf, hr => by
    cases fuel with
    | zero => exact absurd hf (by omega)
    | succ f =>
      by_cases hn : n < 0
      · simp only [scanVal]
        rw [show (encVal (JValue.jint n) ++ rest : List Char)
            = '-' :: (natDigs n.natAbs ++ rest) from by simp [encVal, encInt, hn],
          dropSpace_sp pre hpre, dropSpace_cons_false (by decide)]
        have hone : scanInt ('-' :: (natDigs n.natAbs ++ rest)) = some (n, rest) := by
          have h1 := scanInt_encInt n rest hr
          rw [encInt, if_pos hn] at h1
          simpa using h1
        simp [hone]
      · obtain ⟨c0, t0, hd, hc0⟩ := natDigs_cons n.natAbs
        simp only [scanVal]
        rw [show (encVal (JValue.jint n) ++ rest : List Char) = c0 :: (t0 ++ rest) from by
            simp [encVal, encInt, hn, hd],
          dropSpace_sp pre hpre, dropSpace_cons_false (digit_not_space hc0)]
        have hone : scanInt (c0 :: (t0 ++ rest)) = some (n, rest) := by
          have h1 := scanInt_encInt n rest hr
          rw [encInt, if_neg hn, hd] at h1
          simpa using h1
        simp only [if_neg (digit_ne hc0 'n' (by decide)), if_neg (digit_ne hc0 't' (by decide)),
          if_neg (digit_ne hc0 'f' (by decide)), if_neg (digit_ne hc0 '"' (by decide)),
          if_neg (digit_ne hc0 '[' (by decide)), if_neg (digit_ne hc0 '{' (by decide)),
          if_pos (Or.inr hc0), hone]
  | .jarr [], fuel, pre, rest, hpre, hf, _ => by
    cases fuel with
    | zero => exact absurd hf (by omega)
    | succ f =>
      simp only [scanVal]
      rw [show (encVal (JValue.jarr []) ++ rest : List Char) = '[' :: (']' :: rest) from rfl,
        dropSpace_sp pre hpre, dropSpace_cons_false (by decide)]
      simp [dropSpace, isSpaceCh]
  | .jarr (v :: vs), fuel, pre, rest, hpre, hf, _ => by
    cases fuel with
    | zero => exact absurd hf (by omega)
    | succ f =>
      obtain ⟨c, t, hdv, hcs, hcb, _⟩ := encVal_head v
      simp only [scanVal]
      rw [show (encVal (JValue.jarr (v :: vs)) ++ rest : List Char)
          = '[' :: (encVal v ++ (encItemsRest vs ++ (']' :: rest))) from by
          simp [encVal, encItems],
        dropSpace_sp pre hpre, dropSpace_cons_false (by decide)]
      have key := rtItems v vs f [] rest (by simp) (by
        simp only [encVal, encItems, List.length_cons, List.length_append] at hf
        omega)
      simp only [List.nil_append] at key
      rw [hdv, List.cons_append]
      simp only [dropSpace_cons_false hcs, if_neg hcb]
      rw [← List.cons_append, ← hdv, key]
      rfl
  | .jobj [], fuel, pre, rest, hpre, hf, _ => by
    cases fuel with
    | zero => exact absurd hf (by omega)
    | succ f =>
      simp only [scanVal]
      rw [show (encVal (JValue.jobj []) ++ rest : List Char) = '{' :: ('}' :: rest) from rfl,
        dropSpace_sp pre hpre, dropSpace_cons_false (by decide)]
      simp [dropSpace, isSpaceCh]
  | .jobj ((k, v) :: ms), fuel, pre, rest, hpre, hf, _ => by
    cases fuel with
    | zero => exact absurd hf (by omega)
    | succ f =>
      simp only [scanVal]
      rw [show (encVal (JValue.jobj ((k, v) :: ms)) ++ rest : List Char)
          = '{' :: (encStr k ++ (':' :: ' ' :: (encVal v ++ (encFieldsRest ms
              ++ ('}' :: rest))))) from by
          simp [encVal, encFields],
        dropSpace_sp pre hpre, dropSpace_cons_false (by decide)]
      have key := rtFields k v ms f [] rest (by simp) (by
        simp only [encVal, encFields, List.length_cons, List.length_append] at hf
        omega)
      simp only [List.nil_append] at key
      rw [show (encStr k ++ (':' :: ' ' :: (encVal v ++ (encFieldsRest ms
            ++ ('}' :: rest)))) : List Char)
          = '"' :: (k.data.flatMap escChar ++ ('"' :: (':' :: ' ' :: (encVal v
              ++ (encFieldsRest ms ++ ('}' :: rest)))))) from by
          simp [encStr]]
      simp only [dropSpace_cons_false (by decide : isSpaceCh '"' = false),
        if_neg (by decide : ¬('"' = '}'))]
      rw [show ('"' : Char) :: (k.data.flatMap escChar ++ ('"' :: (':' :: ' ' :: (encVal v
            ++ (encFieldsRest ms ++ ('}' :: rest))))))
          = encStr k ++ (':' :: ' ' :: (encVal v ++ (encFieldsRest ms ++ ('}' :: rest))))
          from by simp [encStr], key]
      rfl
termination_by v _ _ _ _ _ _ => sizeOf v
decreasing_by
  all_goals simp_wf
  all_goals omega

theorem rtItems : ∀ (v : JValue) (vs : List JValue) (fuel : Nat) (pre rest : List Char),
    (∀ c ∈ pre, isSpaceCh c = true) →
    (encVal v).length + (encItemsRest vs).length + 1 < fuel →
    scanItems fuel (pre ++ (encVal v ++ (encItemsRest vs ++ (']' :: rest))))
      = some (v :: vs, rest)
  | v, [], fuel, pre, rest, hpre, hf => by
    cases fuel with
    | zero => exact absurd hf (by omega)
    | succ f =>
      simp only [scanItems]
      have hv := rtVal v f pre (encItemsRest [] ++ (']' :: rest)) hpre (by omega)
        (intStop_itemsRest [] rest)
      rw [hv]
      simp [encItemsRest, dropSpace, isSpaceCh]
  | v, x :: xs, fuel, pre, rest, hpre, hf => by
    cases fuel with
    | zero => exact absurd hf (by omega)
    | succ f =>
      simp only [scanItems]
      have hv := rtVal v f pre (encItemsRest (x :: xs) ++ (']' :: rest)) hpre (by omega)
        (intStop_itemsRest (x :: xs) rest)
      rw [hv]
      have key := rtItems x xs f [' '] rest spOne (by
        simp only [encItemsRest, List.length_cons, List.length_append] at hf
        omega)
      simp only [List.singleton_append] at key
      rw [show encItemsRest (x :: xs) ++ (']' :: rest)
          = ',' :: (' ' :: (encVal x ++ (encItemsRest xs ++ (']' :: rest)))) from by
          simp [encItemsRest]]
      simp [dropSpace_cons_false (by decide : isSpaceCh ',' = false), key]
termination_by v vs _ _ _ _ _ => sizeOf v + sizeOf vs
decreasing_by
  all_goals simp_wf
  all_goals omega

theorem rtFields : ∀ (k : String) (v : JValue) (ms : List (String × JValue)) (fuel : Nat)
    (pre rest : List Char),
    (∀ c ∈ pre, isSpaceCh c = true) →
    (encStr k).length + (encVal v).length + (encFieldsRest ms).length + 3 < fuel →
    scanFields fuel (pre ++ (encStr k ++ (':' :: ' ' :: (encVal v
      ++ (encFieldsRest ms ++ ('}' :: rest)))))) = some ((k, v) :: ms, rest)
  | k, v, [], fuel, pre, rest, hpre, hf => by
    cases fuel with
    | zero => exact absurd hf (by omega)
    | succ f =>
      simp only [scanFields]
      rw [show (encStr k ++ (':' :: ' ' :: (encVal v ++ (encFieldsRest []
            ++ ('}' :: rest)))) : List Char)
          = '"' :: (k.data.flatMap escChar ++ ('"' :: (':' :: ' ' :: (encVal v
              ++ (encFieldsRest [] ++ ('}' :: rest)))))) from by
          simp [encStr],
        dropSpace_sp pre hpre, dropSpace_cons_false (by decide)]
      have hk : scanStr f [] (k.data.flatMap escChar ++ ('"' :: (':' :: ' ' :: (encVal v
          ++ (encFieldsRest [] ++ ('}' :: rest))))))
          = some (k.data, ':' :: ' ' :: (encVal v ++ (encFieldsRest [] ++ ('}' :: rest)))) := by
        have h2 := flatMap_escChar_len k.data
        have hlen : k.data.length < f := by
          simp only [encStr, List.length_cons, List.length_append] at hf
          omega
        simpa using scanStr_encBody k.data f [] _ hlen
      have hv := rtVal v f [' '] (encFieldsRest [] ++ ('}' :: rest)) spOne (by omega)
        (intStop_fieldsRest [] rest)
      simp only [List.singleton_append] at hv
      simp only [encFieldsRest, List.nil_append] at hk hv
      simp only [encFieldsRest, List.nil_append]
      simp [hk, hv, dropSpace, isSpaceCh]
  | k, v, (k2, v2) :: ms', fuel, pre, rest, hpre, hf => by
    cases fuel with
    | zero => exact absurd hf (by omega)
    | succ f =>
      simp only [scanFields]
      rw [show (encStr k ++ (':' :: ' ' :: (encVal v ++ (encFieldsRest ((k2, v2) :: ms')
            ++ ('}' :: rest)))) : List Char)
          = '"' :: (k.data.flatMap escChar ++ ('"' :: (':' :: ' ' :: (encVal v
              ++ (encFieldsRest ((k2, v2) :: ms') ++ ('}' :: rest)))))) from by
          simp [encStr],
        dropSpace_sp pre hpre, dropSpace_cons_false (by decide)]
      have hk : scanStr f [] (k.data.flatMap escChar ++ ('"' :: (':' :: ' ' :: (encVal v
          ++ (encFieldsRest ((k2, v2) :: ms') ++ ('}' :: rest))))))
          = some (k.data, ':' :: ' ' :: (encVal v ++ (encFieldsRest ((k2, v2) :: ms')
              ++ ('}' :: rest)))) := by
        have h2 := flatMap_escChar_len k.data
        have hlen : k.data.length < f := by
          simp only [encStr, List.length_cons, List.length_append] at hf
          omega
        simpa using scanStr_encBody k.data f [] _ hlen
      have hv := rtVal v f [' '] (encFieldsRest ((k2, v2) :: ms') ++ ('}' :: rest)) spOne
        (by omega) (intStop_fieldsRest ((k2, v2) :: ms') rest)
      simp only [List.singleton_append] at hv
      have key := rtFields k2 v2 ms' f [' '] rest spOne (by
        simp only [encFieldsRest, List.length_cons, List.length_append] at hf
        omega)
      simp only [List.singleton_append] at key
      have hshape : encFieldsRest ((k2, v2) :: ms') ++ ('}' :: rest)
          = ',' :: (' ' :: (encStr k2 ++ (':' :: ' ' :: (encVal v2
              ++ (encFieldsRest ms' ++ ('}' :: rest)))))) := by
        simp [encFieldsRest]
      rw [hshape] at hk hv ⊢
      simp [hk, hv, key, dropSpace, isSpaceCh]
termination_by k v ms _ _ _ _ _ => sizeOf v + sizeOf ms
decreasing_by
  all_goals simp_wf
  all_goals omega

end

/-- The codec round trip: parsing a rendered document recovers it exactly. -/
theorem loads_dumps (v : JValue) : loads (dumps v) = some v := by
  have h := rtVal v ((encVal v).length + 1) [] [] (by simp) (by omega) rfl
  simp only [List.nil_append, List.append_nil] at h
  simp only [loads, dumps]
  rw [show (String.mk (encVal v)).toList = encVal v from rfl, h]
  rfl

/-! ### Correlation context

Embeds `src/agent_project/correlation.py`.  Python keeps the current
`CorrelationContext` in a `ContextVar`; the embedding passes that ambient
value as explicit state: a function reading the ambient id takes the
current context, a function setting it returns the replacement context. -/

/-- CorrelationContext (correlation.py): ambient, immutable value. -/
structure CorrelationContext where
  correlation_id : String
  request_id : Option String := none
  user_id : Option String := none
deriving DecidableEq

/-- get_correlation_id (correlation.py): the current context's correlation id. -/
def get_correlation_id (ctx : CorrelationContext) : String :=
  ctx.correlation_id

/-- set_correlation_id (correlation.py): replace the ambient context by a new
one holding the given correlation id and the current request/user ids. -/
def set_correlation_id (cid : String) (ctx : CorrelationContext) : CorrelationContext :=
  { correlation_id := cid, request_id := ctx.request_id, user_id := ctx.user_id }

/-! ### Python payload values and domain events

Embeds `src/agent_project/domain/events/base.py`.  A `PyVal` is a Python
value as it can appear in an event's payload fields: str/int/bool/None and
nested lists/dicts map to themselves; a datetime carries its `isoformat()`
and `str()` renderings; `pobj` stands for any other object, carrying its
`str()` rendering.  Floats do not occur in this repository's events. -/

inductive PyVal where
  | pstr (s : String) : PyVal
  | pint (n : Int) : PyVal
  | pbool (b : Bool) : PyVal
  | pnone : PyVal
  | pdatetime (iso strForm : String) : PyVal
  | pobj (strForm : String) : PyVal
  | plist (xs : List PyVal) : PyVal
  | pdict (kvs : List (String × PyVal)) : PyVal

/-- The per-field conversion loop of `DomainEvent.to_dict` (base.py 68-72):
a value with `isoformat` renders as its isoformat; any other value that has
`__str__` and is not a str/int/float/bool/list/dict is stringified (Python's
`None` falls into that branch and becomes the string "None"). -/
def convertField : PyVal → PyVal
  | .pdatetime iso _ => .pstr iso
  | .pobj strForm => .pstr strForm
  | .pnone => .pstr "None"
  | v => v

/-- EventMetadata (base.py): ids are strings, the timestamp carries its
isoformat rendering, the schema version defaults to 1. -/
structure EventMetadata where
  event_id : String
  correlation_id : String
  timestamp : String
  version : Int
deriving DecidableEq

/-- Default construction of EventMetadata: `event_id` from a fresh uuid,
`correlation_id` from `default_factory=get_correlation_id` — read from the
ambient correlation context at construction time — and `timestamp` from
`datetime.utcnow()`; `version` defaults to 1. -/
def EventMetadata.make (freshId now : String) (ctx : CorrelationContext) : EventMetadata :=
  { event_id := freshId, correlation_id := get_correlation_id ctx,
    timestamp := now, version := 1 }

/-- EventMetadata.to_dict (base.py). -/
def EventMetadata.to_dict (m : EventMetadata) : List (String × PyVal) :=
  [("event_id", .pstr m.event_id), ("correlation_id", .pstr m.correlation_id),
   ("timestamp", .pstr m.timestamp), ("version", .pint m.version)]

/-- DomainEvent (base.py): the concrete class's name (the `event_type`
property), its metadata, and its payload dataclass fields in declaration
order, metadata excluded. -/
structure DomainEvent where
  typeName : String
  metadata : EventMetadata
  fields : List (String × PyVal)

/-- The `event_type` property: the concrete class name. -/
def DomainEvent.event_type (e : DomainEvent) : String :=
  e.typeName

/-- The `correlation_id` property. -/
def DomainEvent.correlation_id (e : DomainEvent) : String :=
  e.metadata.correlation_id

/-- Construct a concrete event with no explicit metadata: the dataclass
default factory builds the metadata from the ambient correlation context at
construction time. -/
def DomainEvent.makeDefault (typeName : String) (fields : List (String × PyVal))
    (freshId now : String) (ctx : CorrelationContext) : DomainEvent :=
  { typeName := typeName, metadata := EventMetadata.make freshId now ctx, fields := fields }

/-- Construct a concrete event with explicitly supplied metadata (the
`metadata=...` keyword): the ambient context is not consulted. -/
def DomainEvent.makeWithMetadata (typeName : String) (fields : List (String × PyVal))
    (m : EventMetadata) : DomainEvent :=
  { typeName := typeName, metadata := m, fields := fields }

/-- DomainEvent.to_dict (base.py 61-80): `event_type`, the metadata dict, and
all payload fields under `data` with the conversion loop applied to each. -/
def DomainEvent.to_dict (e : DomainEvent) : List (String × PyVal) :=
  [("event_type", .pstr e.event_type),
   ("metadata", .pdict e.metadata.to_dict),
   ("data", .pdict (e.fields.map (fun kv => (kv.1, convertField kv.2))))]

mutual

/-- How `json.dumps(..., default=str)` renders a Python value as a JSON
document: JSON-native values map across, `None` becomes null, and the
`default=str` hook renders datetimes and other objects via `str()`. -/
def pyToJson : PyVal → JValue
  | .pstr s => .jstr s
  | .pint n => .jint n
  | .pbool b => .jbool b
  | .pnone => .jnull
  | .pdatetime _ strForm => .jstr strForm
  | .pobj strForm => .jstr strForm
  | .plist xs => .jarr (pyListToJson xs)
  | .pdict kvs => .jobj (pyDictToJson kvs)

/-- Elementwise `pyToJson` on a list. -/
def pyListToJson : List PyVal → List JValue
  | [] => []
  | x :: xs => pyToJson x :: pyListToJson xs

/-- Valuewise `pyToJson` on a dict. -/
def pyDictToJson : List (String × PyVal) → List (String × JValue)
  | [] => []
  | (k, v) :: kvs => (k, pyToJson v) :: pyDictToJson kvs

end

mutual

/-- How `json.loads` materialises a JSON document as Python values. -/
def jsonToPy : JValue → PyVal
  | .jnull => .pnone
  | .jbool b => .pbool b
  | .jint n => .pint n
  | .jstr s => .pstr s
  | .jarr xs => .plist (jsonListToPy xs)
  | .jobj kvs => .pdict (jsonDictToPy kvs)

/-- Elementwise `jsonToPy` on a list. -/
def jsonListToPy : List JValue → List PyVal
  | [] => []
  | x :: xs => jsonToPy x :: jsonListToPy xs

/-- Valuewise `jsonToPy` on a dict. -/
def jsonDictToPy : List (String × JValue) → List (String × PyVal)
  | [] => []
  | (k, v) :: kvs => (k, jsonToPy v) :: jsonDictToPy kvs

end

/-- The JSON document `RedisEventBus._serialize_event` builds for a domain
event: `json.dumps(event.to_dict(), default=str)` before printing. -/
def DomainEvent.doc (e : DomainEvent) : JValue :=
  pyToJson (.pdict e.to_dict)

/-- The wire string `_serialize_event` returns for a domain event. -/
def DomainEvent.serializeDomain (e : DomainEvent) : String :=
  dumps e.doc

/-! ### The in-memory bus

Embeds `src/agent_project/infrastructure/event_bus/adapters/in_memory.py`.
The registry `self._subscribers : Dict[Type[DomainEvent], List[Any]]` is an
association list keyed by the event's runtime type; handlers are compared by
Python equality, abstracted as a type with decidable equality.  All three
operations are `async def`s whose effects are purely on the bus's own state,
so they embed as state-passing functions. -/

/-- An event as the in-memory bus sees it: its runtime type (`type(event)`)
and a tag distinguishing instances. -/
structure MemEvent (τ : Type) where
  ty : τ
  tag : Nat
deriving DecidableEq

/-- Dictionary read with default: `d.get(k, [])`, also the value a
defaultdict materialises for `d[k]`. -/
def dictGetD {τ κ : Type} [DecidableEq τ] (d : List (τ × List κ)) (k : τ) : List κ :=
  match d with
  | [] => []
  | (k', v) :: rest => if k' = k then v else dictGetD rest k

/-- Dictionary write: replace the value bound at `k`, or add the binding at
the end (defaultdict materialisation followed by in-place mutation). -/
def dictSet {τ κ : Type} [DecidableEq τ] (d : List (τ × List κ)) (k : τ) (v : List κ) :
    List (τ × List κ) :=
  match d with
  | [] => [(k, v)]
  | (k', v') :: rest => if k' = k then (k, v) :: rest else (k', v') :: dictSet rest k v

/-- InMemoryEventBus state: the subscriber registry and the append-only
published-events log. -/
structure InMemoryEventBus (τ κ : Type) where
  subscribers : List (τ × List κ)
  published_events : List (MemEvent τ)
deriving DecidableEq

variable {τ κ : Type} [DecidableEq τ] [DecidableEq κ]

/-- InMemoryEventBus.__init__: empty registry, empty log. -/
def InMemoryEventBus.new : InMemoryEventBus τ κ :=
  { subscribers := [], published_events := [] }

/-- InMemoryEventBus.subscribe (in_memory.py 34-37): accessing
`self._subscribers[event_type]` materialises the defaultdict entry; the
handler is appended only when not already present. -/
def InMemoryEventBus.subscribe (bus : InMemoryEventBus τ κ) (event_type : τ) (handler : κ) :
    InMemoryEventBus τ κ :=
  let cur := dictGetD bus.subscribers event_type
  { bus with subscribers :=
      dictSet bus.subscribers event_type (if handler ∈ cur then cur else cur ++ [handler]) }

/-- InMemoryEventBus.unsubscribe (in_memory.py 39-42): `list.remove` drops the
first occurrence, guarded by a membership test, so a missing handler is a
no-op (beyond the defaultdict materialising the entry). -/
def InMemoryEventBus.unsubscribe (bus : InMemoryEventBus τ κ) (event_type : τ) (handler : κ) :
    InMemoryEventBus τ κ :=
  let cur := dictGetD bus.subscribers event_type
  { bus with subscribers :=
      dictSet bus.subscribers event_type (if handler ∈ cur then cur.erase handler else cur) }

/-- The observable outcome of running one handler: which handler ran, the
event it was called with, and the error it raised, if any. -/
structure Invocation (τ κ : Type) where
  handler : κ
  event : MemEvent τ
  raised : Option String
deriving DecidableEq

/-- InMemoryEventBus._execute_handler (in_memory.py 44-54): run one handler
under try/except; a raising handler is logged and the exception is not
re-raised.  `beh h e` gives the handler body's outcome. -/
def execute_handler (beh : κ → MemEvent τ → Except String Unit) (h : κ) (e : MemEvent τ) :
    Except String (Invocation τ κ) :=
  match beh h e with
  | .ok _ => .ok ⟨h, e, none⟩
  | .error msg => .ok ⟨h, e, some msg⟩

/-- asyncio.gather over `_execute_handler` tasks: run each in turn,
propagating an escaped exception (`return_exceptions=True` would collect it
instead; the difference is unobservable because `_execute_handler` never
raises, see `gatherExec_eq`). -/
def gatherExec (beh : κ → MemEvent τ → Except String Unit) (e : MemEvent τ) :
    List κ → Except String (List (Invocation τ κ))
  | [] => .ok []
  | h :: hs =>
    match execute_handler beh h e with
    | .error m => .error m
    | .ok inv =>
      match gatherExec beh e hs with
      | .error m => .error m
      | .ok invs => .ok (inv :: invs)

/-- InMemoryEventBus.publish (in_memory.py 19-32): append the event to the
log, look up the handlers registered for the event's exact runtime type
(`self._subscribers.get(type(event), [])` — no materialisation, no
inheritance walk), and run every handler concurrently. -/
def InMemoryEventBus.publish (beh : κ → MemEvent τ → Except String Unit)
    (bus : InMemoryEventBus τ κ) (e : MemEvent τ) :
    Except String (InMemoryEventBus τ κ × List (Invocation τ κ)) :=
  let bus' := { bus with published_events := bus.published_events ++ [e] }
  let handlers := dictGetD bus.subscribers e.ty
  match gatherExec beh e handlers with
  | .ok invs => .ok (bus', invs)
  | .error m => .error m

/-- The record `_execute_handler` produces for one handler. -/
def invOf (beh : κ → MemEvent τ → Except String Unit) (e : MemEvent τ) (h : κ) :
    Invocation τ κ :=
  match beh h e with
  | .ok _ => ⟨h, e, none⟩
  | .error m => ⟨h, e, some m⟩

/-- The gather never propagates an exception and runs every handler: the
content of the try/except in `_execute_handler`. -/
theorem gatherExec_eq (beh : κ → MemEvent τ → Except String Unit) (e : MemEvent τ) :
    ∀ hs : List κ, gatherExec beh e hs = .ok (hs.map (invOf beh e)) := by
  intro hs
  induction hs with
  | nil => rfl
  | cons h t ih =>
    cases hbe : beh h e <;>
      simp [gatherExec, execute_handler, invOf, hbe, ih]

/-- publish, in closed form: it returns normally, appends the event to the
log, leaves the registry unchanged, and invokes exactly the handlers
registered for the event's runtime type. -/
theorem publish_eq (beh : κ → MemEvent τ → Except String Unit)
    (bus : InMemoryEventBus τ κ) (e : MemEvent τ) :
    bus.publish beh e = .ok
      ({ bus with published_events := bus.published_events ++ [e] },
        (dictGetD bus.subscribers e.ty).map (invOf beh e)) := by
  simp [InMemoryEventBus.publish, gatherExec_eq]

/-- The invocations a publish produces (total: publish never raises). -/
def publishInvs (beh : κ → MemEvent τ → Except String Unit)
    (bus : InMemoryEventBus τ κ) (e : MemEvent τ) : List (Invocation τ κ) :=
  match bus.publish beh e with
  | .ok (_, invs) => invs
  | .error _ => []

/-! #### Registry invariant: reachable buses hold each handler at most once -/

/-- No handler is registered twice for any type. -/
def RegistryNodup (bus : InMemoryEventBus τ κ) : Prop :=
  ∀ t : τ, (dictGetD bus.subscribers t).Nodup

theorem dictGetD_dictSet_self (d : List (τ × List κ)) (k : τ) (v : List κ) :
    dictGetD (dictSet d k v) k = v := by
  induction d with
  | nil => simp [dictGetD, dictSet]
  | cons p rest ih =>
    obtain ⟨k', v'⟩ := p
    by_cases h : k' = k
    · simp [dictGetD, dictSet, h]
    · simp [dictGetD, dictSet, h, ih]

theorem dictGetD_dictSet_ne (d : List (τ × List κ)) {k k' : τ} (v : List κ) (h : k' ≠ k) :
    dictGetD (dictSet d k v) k' = dictGetD d k' := by
  have h2 : ¬(k = k') := fun he => h he.symm
  induction d with
  | nil => simp [dictGetD, dictSet, h2]
  | cons p rest ih =>
    obtain ⟨k2, v2⟩ := p
    by_cases hk : k2 = k
    · subst hk
      simp [dictGetD, dictSet, h2]
    · by_cases h3 : k2 = k'
      · simp [dictGetD, dictSet, hk, h3, h]
      · simp [dictGetD, dictSet, hk, h3, ih]

theorem subscribe_getD_self (bus : InMemoryEventBus τ κ) (t : τ) (h : κ) :
    dictGetD (bus.subscribe t h).subscribers t =
      (if h ∈ dictGetD bus.subscribers t then dictGetD bus.subscribers t
       else dictGetD bus.subscribers t ++ [h]) := by
  simp [InMemoryEventBus.subscribe, dictGetD_dictSet_self]

theorem subscribe_getD_ne (bus : InMemoryEventBus τ κ) (t t' : τ) (h : κ) (hne : t' ≠ t) :
    dictGetD (bus.subscribe t h).subscribers t' = dictGetD bus.subscribers t' := by
  simp [InMemoryEventBus.subscribe, dictGetD_dictSet_ne _ _ hne]

theorem unsubscribe_getD_self (bus : InMemoryEventBus τ κ) (t : τ) (h : κ) :
    dictGetD (bus.unsubscribe t h).subscribers t =
      (if h ∈ dictGetD bus.subscribers t then (dictGetD bus.subscribers t).erase h
       else dictGetD bus.subscribers t) := by
  simp [InMemoryEventBus.unsubscribe, dictGetD_dictSet_self]

theorem unsubscribe_getD_ne (bus : InMemoryEventBus τ κ) (t t' : τ) (h : κ) (hne : t' ≠ t) :
    dictGetD (bus.unsubscribe t h).subscribers t' = dictGetD bus.subscribers t' := by
  simp [InMemoryEventBus.unsubscribe, dictGetD_dictSet_ne _ _ hne]

theorem new_nodup : RegistryNodup (InMemoryEventBus.new : InMemoryEventBus τ κ) := by
  intro t
  simp [InMemoryEventBus.new, dictGetD]

theorem subscribe_nodup {bus : InMemoryEventBus τ κ} (hn : RegistryNodup bus) (t : τ) (h : κ) :
    RegistryNodup (bus.subscribe t h) := by
  intro t'
  by_cases he : t' = t
  · subst he
    rw [subscribe_getD_self]
    by_cases hm : h ∈ dictGetD bus.subscribers t'
    · simpa [hm] using hn t'
    · simp only [hm, if_neg]
      simp [List.nodup_append, hn t', hm]
  · rw [subscribe_getD_ne _ _ _ _ he]
    exact hn t'

theorem unsubscribe_nodup {bus : InMemoryEventBus τ κ} (hn : RegistryNodup bus) (t : τ) (h : κ) :
    RegistryNodup (bus.unsubscribe t h) := by
  intro t'
  by_cases he : t' = t
  · subst he
    rw [unsubscribe_getD_self]
    by_cases hm : h ∈ dictGetD bus.subscribers t'
    · simpa [hm] using (hn t').erase h
    · simpa [hm] using hn t'
  · rw [unsubscribe_getD_ne _ _ _ _ he]
    exact hn t'

theorem publish_subscribers (beh : κ → MemEvent τ → Except String Unit)
    (bus : InMemoryEventBus τ κ) (e : MemEvent τ) (bus' : InMemoryEventBus τ κ)
    (invs : List (Invocation τ κ)) (hp : bus.publish beh e = .ok (bus', invs)) :
    bus'.subscribers = bus.subscribers := by
  rw [publish_eq] at hp
  cases hp
  rfl

/-- Bus states reachable from a fresh bus through the public operations. -/
inductive Reachable : InMemoryEventBus τ κ → Prop where
  | init : Reachable InMemoryEventBus.new
  | subscribe {bus : InMemoryEventBus τ κ} (t : τ) (h : κ) :
      Reachable bus → Reachable (bus.subscribe t h)
  | unsubscribe {bus : InMemoryEventBus τ κ} (t : τ) (h : κ) :
      Reachable bus → Reachable (bus.unsubscribe t h)
  | publish {bus bus' : InMemoryEventBus τ κ} (beh : κ → MemEvent τ → Except String Unit)
      (e : MemEvent τ) (invs : List (Invocation τ κ)) :
      Reachable bus → bus.publish beh e = .ok (bus', invs) → Reachable bus'

/-- Every reachable bus satisfies the registry invariant. -/
theorem reachable_nodup {bus : InMemoryEventBus τ κ} (hr : Reachable bus) :
    RegistryNodup bus := by
  induction hr with
  | init => exact new_nodup
  | subscribe t h _ ih => exact subscribe_nodup ih t h
  | unsubscribe t h _ ih => exact unsubscribe_nodup ih t h
  | publish beh e invs _ hp ih =>
    intro t
    rw [publish_subscribers beh _ e _ invs hp]
    exact ih t

/-! ### The Redis bus

Embeds `src/agent_project/infrastructure/event_bus/adapters/redis.py` and
`ports.py`.  The Redis store itself is external to the repository; it is
modelled as an oracle (`RedisTransport`) giving the outcome of each
transport operation the bus performs.  The `ContextVar`-held correlation
context is explicit state, as above. -/

/-- Exception taxonomy: the bus's own kinds from ports.py (PublishError and
SubscriptionError are EventBusError subclasses) plus the redis library's
errors (ConnectionError and TimeoutError are RedisError subclasses) and any
other Python exception. -/
inductive PyExc where
  | eventBusError (msg : String) : PyExc
  | publishError (msg : String) : PyExc
  | subscriptionError (msg : String) : PyExc
  | redisError (msg : String) : PyExc
  | connectionError (msg : String) : PyExc
  | timeoutError (msg : String) : PyExc
  | otherError (msg : String) : PyExc
deriving DecidableEq

/-- The message an exception renders as. -/
def PyExc.msg : PyExc → String
  | .eventBusError m => m
  | .publishError m => m
  | .subscriptionError m => m
  | .redisError m => m
  | .connectionError m => m
  | .timeoutError m => m
  | .otherError m => m

/-- isinstance(e, RedisError). -/
def PyExc.isRedisError : PyExc → Bool
  | .redisError _ => true
  | .connectionError _ => true
  | .timeoutError _ => true
  | _ => false

/-- isinstance(e, (ConnectionError, TimeoutError)). -/
def PyExc.isConnOrTimeout : PyExc → Bool
  | .connectionError _ => true
  | .timeoutError _ => true
  | _ => false

/-- isinstance(e, SubscriptionError). -/
def PyExc.isSubscriptionError : PyExc → Bool
  | .subscriptionError _ => true
  | _ => false

/-- isinstance(e, PublishError). -/
def PyExc.isPublishError : PyExc → Bool
  | .publishError _ => true
  | _ => false

/-- isinstance(e, EventBusError): the bus's own kinds. -/
def PyExc.isEventBusError : PyExc → Bool
  | .eventBusError _ => true
  | .publishError _ => true
  | .subscriptionError _ => true
  | _ => false

/-- Outcome of one transport operation. -/
inductive TransportResult where
  | ok : TransportResult
  | raise (e : PyExc) : TransportResult
deriving DecidableEq

/-- The Redis transport as an oracle: `connect` covers pool and client
construction plus the first ping inside the lock; `ping` is the liveness
probe on an existing client; the others take the channel/stream name and,
for the write operations, the payload. -/
structure RedisTransport where
  ping : TransportResult
  connect : TransportResult
  chanPublish : String → String → TransportResult
  streamAdd : String → String → TransportResult
  chanSubscribe : String → TransportResult
  chanUnsubscribe : String → TransportResult

/-- The connection-relevant state of RedisEventBus: `self._connected` and
whether `self.redis_client` is set. -/
structure RedisConnState where
  connected : Bool
  hasClient : Bool
deriving DecidableEq

/-- The locked section of `_ensure_connection`: re-check the flag, then build
the pool and clients and ping, wrapping any failure as EventBusError. -/
def connectNow (tr : RedisTransport) (st : RedisConnState) : Except PyExc RedisConnState :=
  if st.connected then .ok st
  else
    match tr.connect with
    | .ok => .ok { connected := true, hasClient := true }
    | .raise e => .error (.eventBusError ("Redis connection failed: " ++ e.msg))

/-- RedisEventBus._ensure_connection (redis.py 82-119): the fast path pings
an existing connection, catching only ConnectionError/TimeoutError (any
other exception from the probe propagates raw); on a caught probe failure
or a cold start, fall through to the locked connect. -/
def ensure_connection (tr : RedisTransport) (st : RedisConnState) :
    Except PyExc RedisConnState :=
  if st.connected && st.hasClient then
    match tr.ping with
    | .ok => .ok st
    | .raise e =>
      if e.isConnOrTimeout then connectNow tr { st with connected := false }
      else .error e
  else connectNow tr st

/-- RedisEventBus._get_channel_name (redis.py 121-123). -/
def channel_name (keyPrefix tyName : String) : String :=
  keyPrefix ++ "channel:" ++ tyName

/-- RedisEventBus._get_stream_name (redis.py 125-127). -/
def stream_name (keyPrefix tyName : String) : String :=
  keyPrefix ++ "stream:" ++ tyName

/-- Python str.replace(old, new), fuel-bounded: scan left to right, replacing
non-overlapping occurrences.  The fuel only needs to reach the input length
(`replaceAll` supplies it); the zero-fuel row is unreachable then. -/
def replaceAllF (pat rep : List Char) : Nat → List Char → List Char
  | 0, s => s
  | fuel + 1, s =>
    match s with
    | [] => []
    | c :: rest =>
      if pat.isPrefixOf (c :: rest) ∧ pat ≠ [] then
        rep ++ replaceAllF pat rep fuel ((c :: rest).drop pat.length)
      else c :: replaceAllF pat rep fuel rest

/-- Python str.replace(old, new) for nonempty old (the bus's pattern
`{key_prefix}channel:` is never empty). -/
def replaceAll (pat rep s : List Char) : List Char :=
  replaceAllF pat rep s.length s

/-- Whether the pattern occurs anywhere in the input. -/
def hasOccur (pat : List Char) : List Char → Bool
  | [] => pat.isEmpty
  | c :: rest => pat.isPrefixOf (c :: rest) || hasOccur pat rest

theorem replaceAllF_noOccur (pat rep : List Char) :
    ∀ (s : List Char) (fuel : Nat), hasOccur pat s = false →
      replaceAllF pat rep fuel s = s := by
  intro s
  induction s with
  | nil =>
    intro fuel _
    cases fuel <;> rfl
  | cons c rest ih =>
    intro fuel h
    simp only [hasOccur, Bool.or_eq_false_iff] at h
    cases fuel with
    | zero => rfl
    | succ f =>
      have hcond : ¬(pat.isPrefixOf (c :: rest) = true ∧ pat ≠ []) := by
        rw [h.1]
        simp
      simp only [replaceAllF, if_neg hcond]
      rw [ih f h.2]

/-- Stripping a leading occurrence of the pattern: the model of
`channel.replace(f"{self.key_prefix}channel:", "")` on a well-formed channel
name whose type-name part does not itself contain the pattern. -/
theorem replaceAll_strip (pat tail : List Char) (hne : pat ≠ [])
    (hno : hasOccur pat tail = false) :
    replaceAll pat [] (pat ++ tail) = tail := by
  have hpref : pat.isPrefixOf (pat ++ tail) = true :=
    List.isPrefixOf_iff_prefix.mpr (List.prefix_append _ _)
  obtain ⟨p, ps, rfl⟩ : ∃ p ps, pat = p :: ps := by
    cases pat with
    | nil => exact absurd rfl hne
    | cons p ps => exact ⟨p, ps, rfl⟩
  simp only [replaceAll, List.cons_append, List.length_cons, List.length_append]
  simp only [replaceAllF, ← List.cons_append, hpref, hne, ne_eq, not_false_iff, and_true,
    if_pos, List.nil_append]
  rw [List.drop_left]
  exact replaceAllF_noOccur _ _ tail _ hno

/-- Key presence: `k in d` on a Python dict. -/
def dictHasKey {τ κ : Type} [DecidableEq τ] (d : List (τ × List κ)) (k : τ) : Bool :=
  match d with
  | [] => false
  | (k', _) :: rest => if k' = k then true else dictHasKey rest k

/-- Key removal: `del d[k]`. -/
def dictDel {τ κ : Type} [DecidableEq τ] (d : List (τ × List κ)) (k : τ) :
    List (τ × List κ) :=
  match d with
  | [] => []
  | (k', v') :: rest => if k' = k then rest else (k', v') :: dictDel rest k

/-- The handler-management state of RedisEventBus: `self._handlers` keyed by
the simple event-type name, the set of subscribed channels, and the
listener-running flag (which also tracks that the pubsub handle exists). -/
structure RedisRegistry (κ : Type) where
  handlers : List (String × List κ)
  subscribed_channels : List String
  running : Bool
deriving DecidableEq

/-- The fresh registry of RedisEventBus.__init__. -/
def RedisRegistry.new {κ : Type} : RedisRegistry κ :=
  { handlers := [], subscribed_channels := [], running := false }

/-- Result of a Redis-bus subscribe: the state after the call and the
exception it raised, if any (partial mutations before a failure persist). -/
structure RSubResult (κ : Type) where
  st : RedisConnState
  reg : RedisRegistry κ
  exc : Option PyExc
deriving DecidableEq

/-- RedisEventBus.subscribe (redis.py 194-223): `_ensure_connection` runs
before the try-block, so its EventBusError propagates unwrapped; inside the
try the handler is appended unconditionally (no membership check, unlike the
in-memory bus), then the channel is subscribed on first use and the listener
started; any exception inside the try is wrapped as SubscriptionError. -/
def redisSubscribe (tr : RedisTransport) (keyPrefix : String) (st : RedisConnState)
    (reg : RedisRegistry κ) (tyName : String) (handler : κ) : RSubResult κ :=
  match ensure_connection tr st with
  | .error e => ⟨st, reg, some e⟩
  | .ok st' =>
    let newHandlers := dictSet reg.handlers tyName (dictGetD reg.handlers tyName ++ [handler])
    let chan := channel_name keyPrefix tyName
    if chan ∈ reg.subscribed_channels then
      ⟨st', { reg with handlers := newHandlers }, none⟩
    else
      if st'.hasClient then
        match tr.chanSubscribe chan with
        | .ok =>
          ⟨st', { handlers := newHandlers,
                  subscribed_channels := reg.subscribed_channels ++ [chan],
                  running := true }, none⟩
        | .raise e =>
          ⟨st', { reg with handlers := newHandlers },
           some (.subscriptionError ("Failed to subscribe to event type " ++ tyName
             ++ ": " ++ e.msg))⟩
      else
        ⟨st', { reg with handlers := newHandlers },
         some (.subscriptionError ("Failed to subscribe to event type " ++ tyName
           ++ ": PubSub client not initialized"))⟩

/-- Result of a Redis-bus unsubscribe. -/
structure RUnsubResult (κ : Type) where
  reg : RedisRegistry κ
  exc : Option PyExc
deriving DecidableEq

/-- RedisEventBus.unsubscribe (redis.py 225-257): no connection is touched;
`list.remove` drops the first registration, its ValueError for a missing
handler is swallowed, and a missing key skips everything; when the type's
list becomes empty the key is deleted, the channel unsubscribed (an error
there is wrapped as SubscriptionError) and dropped from the tracked set. -/
def redisUnsubscribe (tr : RedisTransport) (keyPrefix : String)
    (reg : RedisRegistry κ) (tyName : String) (handler : κ) : RUnsubResult κ :=
  if dictHasKey reg.handlers tyName then
    let cur := dictGetD reg.handlers tyName
    if handler ∈ cur then
      let removed := cur.erase handler
      if removed.isEmpty then
        let h2 := dictDel reg.handlers tyName
        let chan := channel_name keyPrefix tyName
        if reg.running then
          match tr.chanUnsubscribe chan with
          | .ok =>
            ⟨{ handlers := h2, subscribed_channels := reg.subscribed_channels.erase chan,
               running := reg.running }, none⟩
          | .raise e =>
            ⟨{ reg with handlers := h2 },
             some (.subscriptionError ("Failed to unsubscribe from event type " ++ tyName
               ++ ": " ++ e.msg))⟩
        else
          ⟨{ handlers := h2, subscribed_channels := reg.subscribed_channels.erase chan,
             running := reg.running }, none⟩
      else ⟨{ reg with handlers := dictSet reg.handlers tyName removed }, none⟩
    else ⟨reg, none⟩
  else ⟨reg, none⟩

/-- What RedisEventBus.publish is handed: a domain event; a non-domain object
with its `__dict__`-or-str fallback data; or an object `json.dumps` rejects
(for example a self-referential structure), whose serialization raises. -/
inductive PubEvent where
  | domain (e : DomainEvent) : PubEvent
  | foreign (tyName : String) (d : JValue) : PubEvent
  | unserializable (tyName msg : String) : PubEvent

/-- The runtime type name `type(event).__name__` used for key naming. -/
def pubEventTypeName : PubEvent → String
  | .domain e => e.typeName
  | .foreign tyName _ => tyName
  | .unserializable tyName _ => tyName

/-- RedisEventBus._serialize_event (redis.py 129-146): a DomainEvent goes
through to_dict; any other object through the fallback shape
`{event_type, data, correlation_id: get_correlation_id()}`; a failure is
wrapped as PublishError. -/
def serialize_event (ctx : CorrelationContext) : PubEvent → Except PyExc String
  | .domain e => .ok e.serializeDomain
  | .foreign tyName d => .ok (dumps (.jobj [("event_type", .jstr tyName),
      ("data", d), ("correlation_id", .jstr (get_correlation_id ctx))]))
  | .unserializable _ m => .error (.publishError ("Failed to serialize event: " ++ m))

/-- RedisEventBus._deserialize_event (redis.py 148-154): json.loads; a
non-dict document becomes the empty dict; a parse failure is wrapped as
EventBusError. -/
def deserialize_event (s : String) : Except PyExc (List (String × JValue)) :=
  match loads s with
  | some (.jobj kvs) => .ok kvs
  | some _ => .ok []
  | none => .error (.eventBusError "Failed to deserialize event")

/-- Which transport writes a publish attempted, and their outcomes. -/
structure PublishOps where
  chanAttempted : Bool
  chanOk : Bool
  streamAttempted : Bool
  streamOk : Bool
deriving DecidableEq

/-- Result of a Redis-bus publish. -/
structure RPubResult where
  st : RedisConnState
  ops : PublishOps
  exc : Option PyExc
deriving DecidableEq

/-- RedisEventBus.publish (redis.py 156-192): ensure the connection (errors
propagate unwrapped from there), check the client, then inside the try:
serialize (its PublishError is re-wrapped by the catch-all), publish on the
channel, and only if that returns append to the stream; RedisError and any
other exception surface as PublishError. -/
def redisPublish (tr : RedisTransport) (keyPrefix : String) (ctx : CorrelationContext)
    (st : RedisConnState) (ev : PubEvent) : RPubResult :=
  match ensure_connection tr st with
  | .error e => ⟨st, ⟨false, false, false, false⟩, some e⟩
  | .ok st' =>
    if st'.hasClient then
      match serialize_event ctx ev with
      | .error e =>
        ⟨st', ⟨false, false, false, false⟩,
         some (.publishError ("Unexpected error publishing event: " ++ e.msg))⟩
      | .ok payload =>
        let chan := channel_name keyPrefix (pubEventTypeName ev)
        let strm := stream_name keyPrefix (pubEventTypeName ev)
        match tr.chanPublish chan payload with
        | .raise e =>
          ⟨st', ⟨true, false, false, false⟩,
           some (if e.isRedisError
             then .publishError ("Failed to publish event to Redis: " ++ e.msg)
             else .publishError ("Unexpected error publishing event: " ++ e.msg))⟩
        | .ok =>
          match tr.streamAdd strm payload with
          | .raise e =>
            ⟨st', ⟨true, true, true, false⟩,
             some (if e.isRedisError
               then .publishError ("Failed to publish event to Redis: " ++ e.msg)
               else .publishError ("Unexpected error publishing event: " ++ e.msg))⟩
          | .ok => ⟨st', ⟨true, true, true, true⟩, none⟩
    else ⟨st', ⟨false, false, false, false⟩, some (.publishError "Redis client not initialized")⟩

/-- One handler invocation during message handling: the handler, the
deserialized dict it was called with, the ambient correlation id in effect
then, and the error it raised, if any. -/
structure RInvocation (κ : Type) where
  handler : κ
  payload : List (String × JValue)
  ambient : String
  raised : Option String

/-- Result of handling one inbound channel message. -/
structure HandleResult (κ : Type) where
  invoked : List (RInvocation κ)
  ctx : CorrelationContext

/-- The handler loop of `_handle_message`: call each registered handler in
order, each under its own try/except, so one failure stops nothing. -/
def runHandlers (beh : κ → List (String × JValue) → Except String Unit)
    (d : List (String × JValue)) (amb : String) : List κ → List (RInvocation κ)
  | [] => []
  | h :: hs =>
    (match beh h d with
     | .ok _ => (⟨h, d, amb, none⟩ : RInvocation κ)
     | .error m => ⟨h, d, amb, some m⟩) :: runHandlers beh d amb hs

/-- RedisEventBus._handle_message (redis.py 294-323): derive the event-type
name by deleting every occurrence of `{key_prefix}channel:` from the channel
name (str.replace), deserialize the payload (a failure is caught by the
method's own try/except: the message is dropped), overwrite the ambient
correlation context if the payload's metadata carries a correlation id
(set_correlation_id's annotation makes it a string), then run every handler
registered under the derived name. -/
def handle_message (keyPrefix : String) (reg : RedisRegistry κ)
    (beh : κ → List (String × JValue) → Except String Unit)
    (ctx : CorrelationContext) (channel payload : String) : HandleResult κ :=
  let tyName := String.mk (replaceAll (keyPrefix ++ "channel:").data [] channel.data)
  match deserialize_event payload with
  | .error _ => ⟨[], ctx⟩
  | .ok event_data =>
    let ctx' := match jlookup event_data "metadata" with
      | some (.jobj md) =>
        match jlookup md "correlation_id" with
        | some (.jstr c) => set_correlation_id c ctx
        | _ => ctx
      | _ => ctx
    if dictHasKey reg.handlers tyName then
      ⟨runHandlers beh event_data ctx'.correlation_id (dictGetD reg.handlers tyName), ctx'⟩
    else ⟨[], ctx'⟩

/-! ### Shared facts about the operations -/

theorem invOf_handler (beh : κ → MemEvent τ → Except String Unit) (e : MemEvent τ) (h : κ) :
    (invOf beh e h).handler = h := by
  cases hbe : beh h e <;> simp [invOf, hbe]

theorem invOf_event (beh : κ → MemEvent τ → Except String Unit) (e : MemEvent τ) (h : κ) :
    (invOf beh e h).event = e := by
  cases hbe : beh h e <;> simp [invOf, hbe]

theorem publishInvs_eq (beh : κ → MemEvent τ → Except String Unit)
    (bus : InMemoryEventBus τ κ) (e : MemEvent τ) :
    publishInvs beh bus e = (dictGetD bus.subscribers e.ty).map (invOf beh e) := by
  simp [publishInvs, publish_eq]

theorem map_handler_invOf (beh : κ → MemEvent τ → Except String Unit) (e : MemEvent τ) :
    ∀ l : List κ, (l.map (invOf beh e)).map Invocation.handler = l := by
  intro l
  induction l with
  | nil => rfl
  | cons a t ih => simp [invOf_handler, ih]

theorem runHandlers_handlers (beh : κ → List (String × JValue) → Except String Unit)
    (d : List (String × JValue)) (amb : String) :
    ∀ hs : List κ, (runHandlers beh d amb hs).map RInvocation.handler = hs := by
  intro hs
  induction hs with
  | nil => rfl
  | cons h t ih => cases hbe : beh h d <;> simp [runHandlers, hbe, ih]

theorem runHandlers_ambient (beh : κ → List (String × JValue) → Except String Unit)
    (d : List (String × JValue)) (amb : String) :
    ∀ hs : List κ, ∀ r ∈ runHandlers beh d amb hs, r.ambient = amb := by
  intro hs
  induction hs with
  | nil => intro r hr; cases hr
  | cons h t ih =>
    intro r hr
    simp only [runHandlers, List.mem_cons] at hr
    rcases hr with rfl | hr
    · cases hbe : beh h d <;> simp [hbe]
    · exact ih r hr

/-- With a live connection (flag set, client present, ping answering) the
fast path of `_ensure_connection` returns without touching the state. -/
theorem ensure_fast (tr : RedisTransport) (st : RedisConnState)
    (hc : st.connected = true) (hcl : st.hasClient = true) (hp : tr.ping = .ok) :
    ensure_connection tr st = .ok st := by
  simp [ensure_connection, hc, hcl, hp]

theorem dictHasKey_dictSet_self (d : List (τ × List κ)) (k : τ) (v : List κ) :
    dictHasKey (dictSet d k v) k = true := by
  induction d with
  | nil => simp [dictHasKey, dictSet]
  | cons p rest ih =>
    obtain ⟨k', v'⟩ := p
    by_cases h : k' = k <;> simp [dictHasKey, dictSet, h, ih]

theorem dictGetD_of_hasKey_false (d : List (τ × List κ)) (k : τ)
    (h : dictHasKey d k = false) : dictGetD d k = [] := by
  induction d with
  | nil => rfl
  | cons p rest ih =>
    obtain ⟨k', v'⟩ := p
    by_cases h2 : k' = k
    · simp [dictHasKey, h2] at h
    · simp only [dictHasKey, h2, if_neg] at h
      simp [dictGetD, h2, ih h]

theorem dictHasKey_false_of_not_mem (d : List (τ × List κ)) (k : τ)
    (h : k ∉ d.map Prod.fst) : dictHasKey d k = false := by
  induction d with
  | nil => rfl
  | cons p rest ih =>
    obtain ⟨k', v'⟩ := p
    simp only [List.map_cons, List.mem_cons, not_or] at h
    simp only [dictHasKey, if_neg (Ne.symm h.1)]
    exact ih h.2

theorem dictHasKey_dictDel_self (d : List (τ × List κ)) (k : τ)
    (hk : (d.map Prod.fst).Nodup) : dictHasKey (dictDel d k) k = false := by
  induction d with
  | nil => rfl
  | cons p rest ih =>
    obtain ⟨k', v'⟩ := p
    simp only [List.map_cons, List.nodup_cons] at hk
    by_cases h2 : k' = k
    · subst h2
      simp only [dictDel, if_pos rfl]
      exact dictHasKey_false_of_not_mem rest k' hk.1
    · simp only [dictDel, if_neg h2, dictHasKey, if_neg h2]
      exact ih hk.2

/-! ### The wire document of a domain event -/

/-- The field list of the serialized document of a domain event. -/
def DomainEvent.docFields (e : DomainEvent) : List (String × JValue) :=
  pyDictToJson e.to_dict

theorem doc_eq (e : DomainEvent) : e.doc = .jobj e.docFields := rfl

/-- Deserializing a serialized domain event recovers the document's fields
exactly (via the codec round trip). -/
theorem deserialize_serialize (e : DomainEvent) :
    deserialize_event e.serializeDomain = .ok e.docFields := by
  simp only [deserialize_event, DomainEvent.serializeDomain, loads_dumps, doc_eq]

theorem docFields_event_type (e : DomainEvent) :
    jlookup e.docFields "event_type" = some (.jstr e.event_type) := by
  simp [DomainEvent.docFields, DomainEvent.to_dict, pyDictToJson, pyToJson, jlookup]

theorem docFields_metadata (e : DomainEvent) :
    jlookup e.docFields "metadata" = some (.jobj (pyDictToJson e.metadata.to_dict)) := by
  simp [DomainEvent.docFields, DomainEvent.to_dict, pyDictToJson, pyToJson, jlookup]

theorem metadata_fields_cid (m : EventMetadata) :
    jlookup (pyDictToJson m.to_dict) "correlation_id" = some (.jstr m.correlation_id) := by
  simp [EventMetadata.to_dict, pyDictToJson, pyToJson, jlookup]

theorem docFields_data (e : DomainEvent) :
    jlookup e.docFields "data"
      = some (.jobj (pyDictToJson (e.fields.map (fun kv => (kv.1, convertField kv.2))))) := by
  simp [DomainEvent.docFields, DomainEvent.to_dict, pyDictToJson, pyToJson, jlookup]

/-! ### JSON-representable payload values -/

mutual

/-- A payload value whose JSON rendering is lossless: no datetime or
arbitrary object anywhere (those are stringified on the wire). -/
def nestedPlain : PyVal → Bool
  | .pstr _ => true
  | .pint _ => true
  | .pbool _ => true
  | .pnone => true
  | .pdatetime _ _ => false
  | .pobj _ => false
  | .plist xs => nestedPlainL xs
  | .pdict kvs => nestedPlainD kvs

/-- All elements JSON-lossless. -/
def nestedPlainL : List PyVal → Bool
  | [] => true
  | x :: xs => nestedPlain x && nestedPlainL xs

/-- All values JSON-lossless. -/
def nestedPlainD : List (String × PyVal) → Bool
  | [] => true
  | (_, v) :: kvs => nestedPlain v && nestedPlainD kvs

end

/-- A top-level payload field value that `to_dict`'s conversion loop leaves
unchanged and whose JSON rendering is lossless (`None` is excluded: at top
level it is stringified to "None"). -/
def topPlain : PyVal → Bool
  | .pnone => false
  | v => nestedPlain v

theorem topPlain_convertField {v : PyVal} (h : topPlain v = true) : convertField v = v := by
  cases v <;> first
    | rfl
    | simp [topPlain, nestedPlain] at h

mutual

theorem py_json_py : ∀ v : PyVal, nestedPlain v = true → jsonToPy (pyToJson v) = v
  | .pstr _, _ => rfl
  | .pint _, _ => rfl
  | .pbool _, _ => rfl
  | .pnone, _ => rfl
  | .pdatetime _ _, h => by simp [nestedPlain] at h
  | .pobj _, h => by simp [nestedPlain] at h
  | .plist xs, h => by
    simp only [pyToJson, jsonToPy]
    rw [py_json_pyL xs (by simpa [nestedPlain] using h)]
  | .pdict kvs, h => by
    simp only [pyToJson, jsonToPy]
    rw [py_json_pyD kvs (by simpa [nestedPlain] using h)]

theorem py_json_pyL : ∀ xs : List PyVal, nestedPlainL xs = true →
    jsonListToPy (pyListToJson xs) = xs
  | [], _ => rfl
  | x :: xs, h => by
    simp only [nestedPlainL, Bool.and_eq_true] at h
    simp only [pyListToJson, jsonListToPy]
    rw [py_json_py x h.1, py_json_pyL xs h.2]

theorem py_json_pyD : ∀ kvs : List (String × PyVal), nestedPlainD kvs = true →
    jsonDictToPy (pyDictToJson kvs) = kvs
  | [], _ => rfl
  | (k, v) :: kvs, h => by
    simp only [nestedPlainD, Bool.and_eq_true] at h
    simp only [pyDictToJson, jsonDictToPy]
    rw [py_json_py v h.1, py_json_pyD kvs h.2]

end

/-! ### The published-events log as a heap object

For the copy semantics of `get_published_events`, the Python list object
`self._published_events` is modelled as a reference into a heap of list
objects; `.copy()` allocates a fresh object. -/

/-- A heap of Python list objects holding event lists; `next` is the next
fresh address. -/
structure ListHeap (τ : Type) where
  store : Nat → List (MemEvent τ)
  next : Nat

/-- The in-memory bus with its `_published_events` list held by reference. -/
structure InMemoryBusH (τ κ : Type) where
  subscribers : List (τ × List κ)
  publishedRef : Nat

/-- InMemoryEventBus.get_published_events (in_memory.py 56-58):
`self._published_events.copy()` allocates a fresh list object with the same
elements and returns a reference to it. -/
def get_published_events (bus : InMemoryBusH τ κ) (hp : ListHeap τ) :
    Nat × ListHeap τ :=
  (hp.next,
   { store := fun r => if r = hp.next then hp.store bus.publishedRef else hp.store r,
     next := hp.next + 1 })

/-- An arbitrary in-place mutation (append, clear, ...) of the list object
at address `r`. -/
def mutateList (hp : ListHeap τ) (r : Nat) (f : List (MemEvent τ) → List (MemEvent τ)) :
    ListHeap τ :=
  { hp with store := fun r' => if r' = r then f (hp.store r) else hp.store r' }

/-- A message is dispatched to exactly the handlers registered under the
name derived from its channel, whatever the registry. -/
theorem handle_message_handlers (keyPrefix tyName channel payload : String)
    (reg : RedisRegistry κ) (beh' : κ → List (String × JValue) → Except String Unit)
    (ctx : CorrelationContext) (d : List (String × JValue))
    (hchan : String.mk (replaceAll (keyPrefix ++ "channel:").data [] channel.data) = tyName)
    (hdes : deserialize_event payload = .ok d) :
    (handle_message keyPrefix reg beh' ctx channel payload).invoked.map RInvocation.handler
      = dictGetD reg.handlers tyName := by
  simp only [handle_message]
  rw [hchan, hdes]
  by_cases hk : dictHasKey reg.handlers tyName = true
  · simp [hk, runHandlers_handlers]
  · simp only [Bool.not_eq_true] at hk
    simp [hk, dictGetD_of_hasKey_false _ _ hk]

/-- With an intact connection, subscribe leaves the connection state alone
and appends the handler to the type's list in every branch. -/
theorem redisSubscribe_ok_shape (tr : RedisTransport) (keyPrefix : String)
    (st : RedisConnState) (reg : RedisRegistry κ) (tyName : String) (h : κ)
    (hok : ensure_connection tr st = .ok st) :
    (redisSubscribe tr keyPrefix st reg tyName h).st = st
    ∧ (redisSubscribe tr keyPrefix st reg tyName h).reg.handlers
        = dictSet reg.handlers tyName (dictGetD reg.handlers tyName ++ [h]) := by
  simp only [redisSubscribe, hok]
  constructor <;>
    · split
      · rfl
      · split
        · split <;> rfl
        · rfl

/-- Unsubscribe removes exactly the first registration of the handler from
the type's list (unique dict keys assumed, as in Python). -/
theorem redisUnsubscribe_getD_self (tr : RedisTransport) (keyPrefix : String)
    (reg : RedisRegistry κ) (tyName : String) (h : κ)
    (hkeys : (reg.handlers.map Prod.fst).Nodup) :
    dictGetD (redisUnsubscribe tr keyPrefix reg tyName h).reg.handlers tyName
      = (dictGetD reg.handlers tyName).erase h := by
  by_cases hkey : dictHasKey reg.handlers tyName = true
  · by_cases hmem : h ∈ dictGetD reg.handlers tyName
    · by_cases hemp : ((dictGetD reg.handlers tyName).erase h).isEmpty = true
      · have hnil : (dictGetD reg.handlers tyName).erase h = [] := by
          simpa [List.isEmpty_iff] using hemp
        have hdel : dictGetD (dictDel reg.handlers tyName) tyName = [] :=
          dictGetD_of_hasKey_false _ _ (dictHasKey_dictDel_self _ _ hkeys)
        simp only [redisUnsubscribe, hkey, if_true, hmem, if_pos, hemp]
        split
        · split
          · simpa [hnil] using hdel
          · simpa [hnil] using hdel
        · simpa [hnil] using hdel
      · simp [redisUnsubscribe, hkey, hmem, hemp, dictGetD_dictSet_self]
    · simp [redisUnsubscribe, hkey, hmem, List.erase_of_not_mem hmem]
  · simp only [Bool.not_eq_true] at hkey
    simp [redisUnsubscribe, hkey, dictGetD_of_hasKey_false _ _ hkey]

/-! ### The claims -/

/-- C4: a concrete domain event constructed without explicit metadata stores
in its metadata the ambient correlation id of the current correlation
context at the moment of construction. -/
theorem c4_default_metadata_captures_ambient (tyName : String)
    (fields : List (String × PyVal)) (freshId now : String) (ctx : CorrelationContext) :
    (DomainEvent.makeDefault tyName fields freshId now ctx).metadata.correlation_id
        = get_correlation_id ctx
    ∧ (DomainEvent.makeDefault tyName fields freshId now ctx).correlation_id
        = ctx.correlation_id :=
  ⟨rfl, rfl⟩

/-- C1: after subscribe(T, h) on the in-memory bus, publishing an event whose
runtime type is exactly T invokes h exactly once, with that event; publishing
an event of a different type U never invokes a handler registered only for T
(exact-type matching, no inheritance-based matching). -/
theorem c1_exact_type_delivery (bus : InMemoryEventBus τ κ) (T U : τ) (h : κ)
    (e e' : MemEvent τ) (beh : κ → MemEvent τ → Except String Unit)
    (hnd : (dictGetD bus.subscribers T).Nodup)
    (heT : e.ty = T) (heU : e'.ty = U) (hTU : U ≠ T)
    (honly : h ∉ dictGetD bus.subscribers U) :
    ((publishInvs beh (bus.subscribe T h) e).map Invocation.handler).count h = 1
    ∧ (∀ r ∈ publishInvs beh (bus.subscribe T h) e, r.event = e)
    ∧ (∀ r ∈ publishInvs beh (bus.subscribe T h) e', r.handler ≠ h) := by
  refine ⟨?_, ?_, ?_⟩
  · rw [publishInvs_eq, heT, subscribe_getD_self, map_handler_invOf]
    by_cases hm : h ∈ dictGetD bus.subscribers T
    · rw [if_pos hm]
      exact List.count_eq_one_of_mem hnd hm
    · rw [if_neg hm, List.count_append, List.count_eq_zero_of_not_mem hm]
      simp
  · intro r hr
    rw [publishInvs_eq] at hr
    obtain ⟨h', _, rfl⟩ := List.mem_map.mp hr
    exact invOf_event beh e h'
  · intro r hr
    rw [publishInvs_eq, heU, subscribe_getD_ne bus T U h hTU] at hr
    obtain ⟨h', hh', rfl⟩ := List.mem_map.mp hr
    rw [invOf_handler]
    intro he
    subst he
    exact honly hh'

/-- Witness for C1: a fresh bus, handler 7 on type 0, events of types 0, 1. -/
theorem c1_witness :
    ((publishInvs (fun _ _ => Except.ok ())
        ((InMemoryEventBus.new : InMemoryEventBus Nat Nat).subscribe 0 7)
        ⟨0, 0⟩).map Invocation.handler).count 7 = 1
    ∧ (∀ r ∈ publishInvs (fun _ _ => Except.ok ())
        ((InMemoryEventBus.new : InMemoryEventBus Nat Nat).subscribe 0 7) ⟨0, 0⟩,
        r.event = ⟨0, 0⟩)
    ∧ (∀ r ∈ publishInvs (fun _ _ => Except.ok ())
        ((InMemoryEventBus.new : InMemoryEventBus Nat Nat).subscribe 0 7) ⟨1, 0⟩,
        r.handler ≠ 7) :=
  c1_exact_type_delivery InMemoryEventBus.new 0 1 7 ⟨0, 0⟩ ⟨1, 0⟩ (fun _ _ => Except.ok ())
    (by decide) rfl rfl (by decide) (by decide)

/-- C2: a handler that raises during dispatch prevents nothing: the in-memory
publish returns normally to its caller having run every registered handler,
and the Redis message-handling path still invokes every handler registered
for the message's type. -/
theorem c2_handler_failure_isolation
    (bus : InMemoryEventBus τ κ) (e : MemEvent τ) (beh : κ → MemEvent τ → Except String Unit)
    (h₀ : κ) (m : String) (hmem : h₀ ∈ dictGetD bus.subscribers e.ty)
    (hfail : beh h₀ e = .error m)
    (keyPrefix tyName channel payload : String) (reg : RedisRegistry κ)
    (beh' : κ → List (String × JValue) → Except String Unit) (ctx : CorrelationContext)
    (d : List (String × JValue)) (h₁ : κ) (m' : String)
    (hchan : String.mk (replaceAll (keyPrefix ++ "channel:").data [] channel.data) = tyName)
    (hdes : deserialize_event payload = .ok d)
    (hkey : dictHasKey reg.handlers tyName = true)
    (hmem' : h₁ ∈ dictGetD reg.handlers tyName)
    (hfail' : beh' h₁ d = .error m') :
    bus.publish beh e = .ok ({ bus with published_events := bus.published_events ++ [e] },
      (dictGetD bus.subscribers e.ty).map (invOf beh e))
    ∧ (publishInvs beh bus e).map Invocation.handler = dictGetD bus.subscribers e.ty
    ∧ (handle_message keyPrefix reg beh' ctx channel payload).invoked.map RInvocation.handler
        = dictGetD reg.handlers tyName := by
  refine ⟨publish_eq beh bus e, ?_, ?_⟩
  · rw [publishInvs_eq, map_handler_invOf]
  · simp only [handle_message]
    rw [hchan, hdes]
    simp [hkey, runHandlers_handlers]

/-- Witness for C2: two handlers on each path, 7 raising, 8 working. -/
theorem c2_witness :
    ((InMemoryEventBus.new : InMemoryEventBus Nat Nat).subscribe 0 7 |>.subscribe 0 8).publish
        (fun h _ => if h = 7 then Except.error "boom" else Except.ok ()) ⟨0, 0⟩
      = .ok ({ ((InMemoryEventBus.new : InMemoryEventBus Nat Nat).subscribe 0 7 |>.subscribe 0 8)
            with published_events :=
              ((InMemoryEventBus.new : InMemoryEventBus Nat Nat).subscribe 0 7
                |>.subscribe 0 8).published_events ++ [⟨0, 0⟩] },
          (dictGetD ((InMemoryEventBus.new : InMemoryEventBus Nat Nat).subscribe 0 7
              |>.subscribe 0 8).subscribers (0 : Nat)).map
            (invOf (fun h _ => if h = 7 then Except.error "boom" else Except.ok ()) ⟨0, 0⟩))
    ∧ (publishInvs (fun h _ => if h = 7 then Except.error "boom" else Except.ok ())
        ((InMemoryEventBus.new : InMemoryEventBus Nat Nat).subscribe 0 7 |>.subscribe 0 8)
        ⟨0, 0⟩).map Invocation.handler
      = dictGetD ((InMemoryEventBus.new : InMemoryEventBus Nat Nat).subscribe 0 7
          |>.subscribe 0 8).subscribers (0 : Nat)
    ∧ (handle_message "events:" (⟨[("TestEvent", [7, 8])], [], false⟩ : RedisRegistry Nat)
        (fun h _ => if h = 7 then Except.error "boom" else Except.ok ())
        ⟨"c0", none, none⟩ "events:channel:TestEvent" (dumps (JValue.jobj []))).invoked.map RInvocation.handler
      = dictGetD (⟨[("TestEvent", [7, 8])], [], false⟩ : RedisRegistry Nat).handlers
          "TestEvent" :=
  c2_handler_failure_isolation
    ((InMemoryEventBus.new : InMemoryEventBus Nat Nat).subscribe 0 7 |>.subscribe 0 8)
    ⟨0, 0⟩ (fun h _ => if h = 7 then Except.error "boom" else Except.ok ()) 7 "boom"
    (by decide) rfl "events:" "TestEvent" "events:channel:TestEvent" (dumps (JValue.jobj []))
    (⟨[("TestEvent", [7, 8])], [], false⟩ : RedisRegistry Nat)
    (fun h _ => if h = 7 then Except.error "boom" else Except.ok ())
    ⟨"c0", none, none⟩ [] 7 "boom" rfl rfl (by decide) (by decide) rfl

/-- C10: get_published_events returns a fresh copy of the internal
published-events log: the returned reference is a new object, mutating it in
place leaves the internal log unchanged (and the handler registry, which is
not a heap list object, untouched), and a subsequent get_published_events
still returns the original contents. -/
theorem c10_get_published_events_copy (bus : InMemoryBusH τ κ) (hp : ListHeap τ)
    (hwf : bus.publishedRef < hp.next) (f : List (MemEvent τ) → List (MemEvent τ)) :
    (get_published_events bus hp).1 ≠ bus.publishedRef
    ∧ (mutateList (get_published_events bus hp).2 (get_published_events bus hp).1 f).store
        bus.publishedRef = hp.store bus.publishedRef
    ∧ (get_published_events bus
        (mutateList (get_published_events bus hp).2 (get_published_events bus hp).1 f)).2.store
        (get_published_events bus
          (mutateList (get_published_events bus hp).2 (get_published_events bus hp).1 f)).1
        = hp.store bus.publishedRef := by
  have h1 : bus.publishedRef ≠ hp.next := by omega
  refine ⟨?_, ?_, ?_⟩
  · simp only [get_published_events]
    omega
  · simp [get_published_events, mutateList, h1]
  · simp [get_published_events, mutateList, h1]

/-- Witness for C10 at a one-object heap. -/
theorem c10_witness :
    (get_published_events (⟨[], 0⟩ : InMemoryBusH Nat Nat) ⟨fun _ => [], 1⟩).1 ≠ 0
    ∧ (mutateList (get_published_events (⟨[], 0⟩ : InMemoryBusH Nat Nat)
          ⟨fun _ => [], 1⟩).2
        (get_published_events (⟨[], 0⟩ : InMemoryBusH Nat Nat) ⟨fun _ => [], 1⟩).1
        (fun l => ⟨0, 0⟩ :: l)).store 0 = (fun _ => ([] : List (MemEvent Nat))) 0
    ∧ (get_published_events (⟨[], 0⟩ : InMemoryBusH Nat Nat)
        (mutateList (get_published_events (⟨[], 0⟩ : InMemoryBusH Nat Nat)
            ⟨fun _ => [], 1⟩).2
          (get_published_events (⟨[], 0⟩ : InMemoryBusH Nat Nat) ⟨fun _ => [], 1⟩).1
          (fun l => ⟨0, 0⟩ :: l))).2.store
        (get_published_events (⟨[], 0⟩ : InMemoryBusH Nat Nat)
          (mutateList (get_published_events (⟨[], 0⟩ : InMemoryBusH Nat Nat)
              ⟨fun _ => [], 1⟩).2
            (get_published_events (⟨[], 0⟩ : InMemoryBusH Nat Nat) ⟨fun _ => [], 1⟩).1
            (fun l => ⟨0, 0⟩ :: l))).1
        = (fun _ => ([] : List (MemEvent Nat))) 0 :=
  c10_get_published_events_copy (⟨[], 0⟩ : InMemoryBusH Nat Nat) ⟨fun _ => [], 1⟩
    (by decide) (fun l => ⟨0, 0⟩ :: l)

theorem topPlain_nested {v : PyVal} (h : topPlain v = true) : nestedPlain v = true := by
  cases v <;> simpa [topPlain, nestedPlain] using h

theorem plainFields_convert (l : List (String × PyVal))
    (h : ∀ kv ∈ l, topPlain kv.2 = true) :
    l.map (fun kv => (kv.1, convertField kv.2)) = l := by
  induction l with
  | nil => rfl
  | cons kv t ih =>
    simp only [List.map_cons]
    rw [topPlain_convertField (h kv (by simp)), ih (fun x hx => h x (by simp [hx]))]

theorem topPlain_nestedD (l : List (String × PyVal))
    (h : ∀ kv ∈ l, topPlain kv.2 = true) : nestedPlainD l = true := by
  induction l with
  | nil => rfl
  | cons kv t ih =>
    obtain ⟨k, v⟩ := kv
    simp only [nestedPlainD, Bool.and_eq_true]
    exact ⟨topPlain_nested (h (k, v) (by simp)), ih (fun x hx => h x (by simp [hx]))⟩

/-- C8: serializing a domain event to the wire JSON and deserializing the
string yields a dictionary whose event_type equals the event's, whose
metadata carries the event's correlation_id unchanged, and whose data block
is exactly the rendering of the event's payload fields; when every payload
field is JSON-representable, reading the data block back as Python values
gives literally the original payload fields. -/
theorem c8_wire_round_trip (e : DomainEvent) :
    deserialize_event e.serializeDomain = .ok e.docFields
    ∧ jlookup e.docFields "event_type" = some (.jstr e.event_type)
    ∧ (∃ md, jlookup e.docFields "metadata" = some (.jobj md)
        ∧ jlookup md "correlation_id" = some (.jstr e.metadata.correlation_id))
    ∧ jlookup e.docFields "data"
        = some (.jobj (pyDictToJson (e.fields.map (fun kv => (kv.1, convertField kv.2)))))
    ∧ ((∀ kv ∈ e.fields, topPlain kv.2 = true) →
        jsonDictToPy (pyDictToJson (e.fields.map (fun kv => (kv.1, convertField kv.2))))
          = e.fields) := by
  refine ⟨deserialize_serialize e, docFields_event_type e,
    ⟨pyDictToJson e.metadata.to_dict, docFields_metadata e, metadata_fields_cid e.metadata⟩,
    docFields_data e, ?_⟩
  intro hplain
  rw [plainFields_convert _ hplain]
  exact py_json_pyD _ (topPlain_nestedD _ hplain)

/-- Witness for C8 on the spec's concrete scenario event. -/
theorem c8_witness :
    jsonDictToPy (pyDictToJson (([("task_id", PyVal.pstr "task-123"),
        ("status", PyVal.pstr "completed")] : List (String × PyVal)).map
      (fun kv => (kv.1, convertField kv.2))))
      = [("task_id", PyVal.pstr "task-123"), ("status", PyVal.pstr "completed")] :=
  (c8_wire_round_trip ⟨"TaskProcessedEvent", ⟨"e1", "abc-123", "2023-01-01T00:00:00", 1⟩,
    [("task_id", PyVal.pstr "task-123"), ("status", PyVal.pstr "completed")]⟩).2.2.2.2
    (by decide)

/-- C5: when an inbound message's deserialized payload carries a correlation
id under its metadata key, _handle_message overwrites the ambient
correlation context with it before invoking any handler — every handler
observes that ambient id, and it remains the ambient id afterwards; for a
message obtained by serializing a domain event this id is the event's
correlation id, i.e. the publisher's ambient id captured in the event. -/
theorem c5_correlation_propagation
    (keyPrefix channel payload : String) (reg : RedisRegistry κ)
    (beh : κ → List (String × JValue) → Except String Unit) (ctx : CorrelationContext)
    (d md : List (String × JValue)) (c : String)
    (hdes : deserialize_event payload = .ok d)
    (hmd : jlookup d "metadata" = some (.jobj md))
    (hc : jlookup md "correlation_id" = some (.jstr c))
    (e : DomainEvent) :
    (handle_message keyPrefix reg beh ctx channel payload).ctx.correlation_id = c
    ∧ (∀ r ∈ (handle_message keyPrefix reg beh ctx channel payload).invoked, r.ambient = c)
    ∧ (handle_message keyPrefix reg beh ctx channel e.serializeDomain).ctx.correlation_id
        = e.metadata.correlation_id
    ∧ (∀ r ∈ (handle_message keyPrefix reg beh ctx channel e.serializeDomain).invoked,
        r.ambient = e.metadata.correlation_id) := by
  have main : ∀ (payload' : String) (d' md' : List (String × JValue)) (c' : String),
      deserialize_event payload' = .ok d' →
      jlookup d' "metadata" = some (.jobj md') →
      jlookup md' "correlation_id" = some (.jstr c') →
      (handle_message keyPrefix reg beh ctx channel payload').ctx.correlation_id = c'
      ∧ ∀ r ∈ (handle_message keyPrefix reg beh ctx channel payload').invoked,
          r.ambient = c' := by
    intro payload' d' md' c' hdes' hmd' hc'
    simp only [handle_message]
    rw [hdes']
    simp only [hmd', hc']
    constructor
    · split
      · simp [set_correlation_id]
      · simp [set_correlation_id]
    · split
      · intro r hr
        have := runHandlers_ambient beh d'
          (set_correlation_id c' ctx).correlation_id _ r hr
        simpa [set_correlation_id] using this
      · intro r hr
        cases hr
  refine ⟨(main payload d md c hdes hmd hc).1, (main payload d md c hdes hmd hc).2, ?_, ?_⟩
  · exact (main e.serializeDomain e.docFields (pyDictToJson e.metadata.to_dict)
      e.metadata.correlation_id (deserialize_serialize e) (docFields_metadata e)
      (metadata_fields_cid e.metadata)).1
  · exact (main e.serializeDomain e.docFields (pyDictToJson e.metadata.to_dict)
      e.metadata.correlation_id (deserialize_serialize e) (docFields_metadata e)
      (metadata_fields_cid e.metadata)).2

/-- Witness for C5 on a concrete message carrying correlation id "abc". -/
theorem c5_witness :
    (handle_message "events:" (⟨[("TestEvent", [7])], [], false⟩ : RedisRegistry Nat)
        (fun _ _ => Except.ok ()) ⟨"c0", none, none⟩ "events:channel:TestEvent"
        (dumps (.jobj [("metadata", .jobj [("correlation_id", .jstr "abc")])]))).ctx.correlation_id
      = "abc"
    ∧ (∀ r ∈ (handle_message "events:" (⟨[("TestEvent", [7])], [], false⟩ : RedisRegistry Nat)
        (fun _ _ => Except.ok ()) ⟨"c0", none, none⟩ "events:channel:TestEvent"
        (dumps (.jobj [("metadata", .jobj [("correlation_id", .jstr "abc")])]))).invoked,
        r.ambient = "abc") :=
  ⟨(c5_correlation_propagation "events:" "events:channel:TestEvent"
      (dumps (.jobj [("metadata", .jobj [("correlation_id", .jstr "abc")])]))
      (⟨[("TestEvent", [7])], [], false⟩ : RedisRegistry Nat) (fun _ _ => Except.ok ())
      ⟨"c0", none, none⟩ [("metadata", .jobj [("correlation_id", .jstr "abc")])]
      [("correlation_id", .jstr "abc")] "abc" rfl rfl rfl
      ⟨"T", ⟨"e", "x", "t", 1⟩, []⟩).1,
   (c5_correlation_propagation "events:" "events:channel:TestEvent"
      (dumps (.jobj [("metadata", .jobj [("correlation_id", .jstr "abc")])]))
      (⟨[("TestEvent", [7])], [], false⟩ : RedisRegistry Nat) (fun _ _ => Except.ok ())
      ⟨"c0", none, none⟩ [("metadata", .jobj [("correlation_id", .jstr "abc")])]
      [("correlation_id", .jstr "abc")] "abc" rfl rfl rfl
      ⟨"T", ⟨"e", "x", "t", 1⟩, []⟩).2.1⟩

/-- Counterexample to C3 as stated: with a live connection, when the channel
publish raises, the stream append is never attempted, so "both the channel
publish and the stream append are attempted" fails on this input. -/
theorem c3_counterexample :
    (redisPublish
        (⟨.ok, .ok, fun _ _ => .raise (.connectionError "down"), fun _ _ => .ok,
          fun _ => .ok, fun _ => .ok⟩ : RedisTransport)
        "events:" ⟨"c0", none, none⟩ ⟨true, true⟩
        (.domain ⟨"TestEvent", ⟨"e1", "abc", "t0", 1⟩, []⟩)).ops.chanAttempted = true
    ∧ (redisPublish
        (⟨.ok, .ok, fun _ _ => .raise (.connectionError "down"), fun _ _ => .ok,
          fun _ => .ok, fun _ => .ok⟩ : RedisTransport)
        "events:" ⟨"c0", none, none⟩ ⟨true, true⟩
        (.domain ⟨"TestEvent", ⟨"e1", "abc", "t0", 1⟩, []⟩)).ops.streamAttempted = false :=
  ⟨rfl, rfl⟩

/-- C3 amended: on the Redis bus with a live connection, the channel publish
is attempted whenever serialization succeeds and the stream append is
attempted exactly when the channel publish succeeds; any serialization or
transport error surfaces as PublishError, never a raw transport exception;
and a publish that raises nothing performed a successful stream append. -/
theorem c3_publish_durability (tr : RedisTransport) (keyPrefix : String)
    (ctx : CorrelationContext) (st : RedisConnState) (ev : PubEvent)
    (hc : st.connected = true) (hcl : st.hasClient = true) (hp : tr.ping = .ok) :
    (∀ p, serialize_event ctx ev = .ok p →
        (redisPublish tr keyPrefix ctx st ev).ops.chanAttempted = true)
    ∧ (redisPublish tr keyPrefix ctx st ev).ops.streamAttempted
        = (redisPublish tr keyPrefix ctx st ev).ops.chanOk
    ∧ (∀ ex, (redisPublish tr keyPrefix ctx st ev).exc = some ex →
        ex.isPublishError = true)
    ∧ ((redisPublish tr keyPrefix ctx st ev).exc = none →
        (redisPublish tr keyPrefix ctx st ev).ops.streamAttempted = true
        ∧ (redisPublish tr keyPrefix ctx st ev).ops.streamOk = true) := by
  have hfast := ensure_fast tr st hc hcl hp
  simp only [redisPublish, hfast, hcl, if_true]
  cases hs : serialize_event ctx ev with
  | error e =>
    simp [PyExc.isPublishError]
  | ok p =>
    dsimp only
    cases hcp : tr.chanPublish (channel_name keyPrefix (pubEventTypeName ev)) p with
    | ok =>
      dsimp only
      cases hsa : tr.streamAdd (stream_name keyPrefix (pubEventTypeName ev)) p with
      | ok => simp
      | raise e2 =>
        dsimp only
        refine ⟨fun _ _ => rfl, rfl, fun ex hex => ?_, by simp⟩
        simp only [Option.some_inj] at hex
        subst hex
        by_cases hre : e2.isRedisError = true <;> simp [hre, PyExc.isPublishError]
    | raise e1 =>
      dsimp only
      refine ⟨fun _ _ => rfl, rfl, fun ex hex => ?_, by simp⟩
      simp only [Option.some_inj] at hex
      subst hex
      by_cases hre : e1.isRedisError = true <;> simp [hre, PyExc.isPublishError]

/-- Witness for C3 on an all-succeeding transport. -/
theorem c3_witness :
    (∀ p, serialize_event ⟨"c0", none, none⟩
          (.domain ⟨"TestEvent", ⟨"e1", "abc", "t0", 1⟩, []⟩) = .ok p →
        (redisPublish (⟨.ok, .ok, fun _ _ => .ok, fun _ _ => .ok, fun _ => .ok,
            fun _ => .ok⟩ : RedisTransport) "events:" ⟨"c0", none, none⟩ ⟨true, true⟩
          (.domain ⟨"TestEvent", ⟨"e1", "abc", "t0", 1⟩, []⟩)).ops.chanAttempted = true)
    ∧ (redisPublish (⟨.ok, .ok, fun _ _ => .ok, fun _ _ => .ok, fun _ => .ok,
          fun _ => .ok⟩ : RedisTransport) "events:" ⟨"c0", none, none⟩ ⟨true, true⟩
        (.domain ⟨"TestEvent", ⟨"e1", "abc", "t0", 1⟩, []⟩)).ops.streamAttempted
        = (redisPublish (⟨.ok, .ok, fun _ _ => .ok, fun _ _ => .ok, fun _ => .ok,
            fun _ => .ok⟩ : RedisTransport) "events:" ⟨"c0", none, none⟩ ⟨true, true⟩
          (.domain ⟨"TestEvent", ⟨"e1", "abc", "t0", 1⟩, []⟩)).ops.chanOk
    ∧ (∀ ex, (redisPublish (⟨.ok, .ok, fun _ _ => .ok, fun _ _ => .ok, fun _ => .ok,
            fun _ => .ok⟩ : RedisTransport) "events:" ⟨"c0", none, none⟩ ⟨true, true⟩
          (.domain ⟨"TestEvent", ⟨"e1", "abc", "t0", 1⟩, []⟩)).exc = some ex →
        ex.isPublishError = true)
    ∧ ((redisPublish (⟨.ok, .ok, fun _ _ => .ok, fun _ _ => .ok, fun _ => .ok,
            fun _ => .ok⟩ : RedisTransport) "events:" ⟨"c0", none, none⟩ ⟨true, true⟩
          (.domain ⟨"TestEvent", ⟨"e1", "abc", "t0", 1⟩, []⟩)).exc = none →
        (redisPublish (⟨.ok, .ok, fun _ _ => .ok, fun _ _ => .ok, fun _ => .ok,
            fun _ => .ok⟩ : RedisTransport) "events:" ⟨"c0", none, none⟩ ⟨true, true⟩
          (.domain ⟨"TestEvent", ⟨"e1", "abc", "t0", 1⟩, []⟩)).ops.streamAttempted = true
        ∧ (redisPublish (⟨.ok, .ok, fun _ _ => .ok, fun _ _ => .ok, fun _ => .ok,
            fun _ => .ok⟩ : RedisTransport) "events:" ⟨"c0", none, none⟩ ⟨true, true⟩
          (.domain ⟨"TestEvent", ⟨"e1", "abc", "t0", 1⟩, []⟩)).ops.streamOk = true) :=
  c3_publish_durability (⟨.ok, .ok, fun _ _ => .ok, fun _ _ => .ok, fun _ => .ok,
      fun _ => .ok⟩ : RedisTransport) "events:" ⟨"c0", none, none⟩ ⟨true, true⟩
    (.domain ⟨"TestEvent", ⟨"e1", "abc", "t0", 1⟩, []⟩) rfl rfl rfl

/-- An always-succeeding transport for the C6 scenario. -/
def c6tr : RedisTransport :=
  ⟨.ok, .ok, fun _ _ => .ok, fun _ _ => .ok, fun _ => .ok, fun _ => .ok⟩

/-- The Redis registry after subscribing handler 5 twice for type T. -/
def c6reg : RedisRegistry Nat :=
  (redisSubscribe c6tr "k"
    (redisSubscribe c6tr "k" ⟨true, true⟩ RedisRegistry.new "T" 5).st
    (redisSubscribe c6tr "k" ⟨true, true⟩ RedisRegistry.new "T" 5).reg "T" 5).reg

/-- Counterexample to C6 as stated: on the Redis bus, subscribing the same
handler twice for the same type yields two deliveries per message, not one. -/
theorem c6_counterexample :
    ((handle_message "k" c6reg (fun _ _ => Except.ok ()) ⟨"c0", none, none⟩
        "kchannel:T" (dumps (JValue.jobj []))).invoked.map RInvocation.handler).count 5
      = 2 := by
  rfl

/-- C6 amended: registering the same handler twice for the same type is
idempotent on the in-memory bus — a publish of that type still delivers to
the handler exactly once — but on the Redis bus the second subscribe appends
a second registration and a message is delivered to the handler twice. -/
theorem c6_double_subscribe (bus : InMemoryEventBus τ κ) (T : τ) (h : κ) (e : MemEvent τ)
    (beh : κ → MemEvent τ → Except String Unit)
    (hnd : (dictGetD bus.subscribers T).Nodup) (heT : e.ty = T)
    (tr : RedisTransport) (keyPrefix tyName channel payload : String)
    (reg : RedisRegistry κ) (st : RedisConnState)
    (beh' : κ → List (String × JValue) → Except String Unit) (ctx : CorrelationContext)
    (d : List (String × JValue)) (h' : κ)
    (hc : st.connected = true) (hcl : st.hasClient = true) (hping : tr.ping = .ok)
    (hfresh : h' ∉ dictGetD reg.handlers tyName)
    (hchan : String.mk (replaceAll (keyPrefix ++ "channel:").data [] channel.data) = tyName)
    (hdes : deserialize_event payload = .ok d) :
    ((publishInvs beh ((bus.subscribe T h).subscribe T h) e).map Invocation.handler).count h
        = 1
    ∧ ((handle_message keyPrefix
          (redisSubscribe tr keyPrefix (redisSubscribe tr keyPrefix st reg tyName h').st
            (redisSubscribe tr keyPrefix st reg tyName h').reg tyName h').reg
          beh' ctx channel payload).invoked.map RInvocation.handler).count h' = 2 := by
  constructor
  · have h1 := subscribe_getD_self bus T h
    have h2 := subscribe_getD_self (bus.subscribe T h) T h
    rw [publishInvs_eq, heT, map_handler_invOf]
    by_cases hm : h ∈ dictGetD bus.subscribers T
    · rw [if_pos hm] at h1
      rw [h1, if_pos hm] at h2
      rw [h2]
      exact List.count_eq_one_of_mem hnd hm
    · rw [if_neg hm] at h1
      rw [h1, if_pos (List.mem_append.mpr (Or.inr (List.mem_singleton.mpr rfl)))] at h2
      rw [h2, List.count_append, List.count_eq_zero_of_not_mem hm]
      simp
  · have hok := ensure_fast tr st hc hcl hping
    obtain ⟨hst1, hreg1⟩ := redisSubscribe_ok_shape tr keyPrefix st reg tyName h' hok
    rw [hst1]
    obtain ⟨_, hreg2⟩ := redisSubscribe_ok_shape tr keyPrefix st
      ((redisSubscribe tr keyPrefix st reg tyName h').reg) tyName h' hok
    rw [handle_message_handlers keyPrefix tyName channel payload _ beh' ctx d hchan hdes,
      hreg2, dictGetD_dictSet_self, hreg1, dictGetD_dictSet_self,
      List.count_append, List.count_append, List.count_eq_zero_of_not_mem hfresh]
    simp

/-- Witness for C6: fresh in-memory bus, fresh Redis registry, handler 5. -/
theorem c6_witness :
    ((publishInvs (fun _ _ => Except.ok ())
        (((InMemoryEventBus.new : InMemoryEventBus Nat Nat).subscribe 0 5).subscribe 0 5)
        ⟨0, 0⟩).map Invocation.handler).count 5 = 1
    ∧ ((handle_message "k"
          (redisSubscribe c6tr "k" (redisSubscribe c6tr "k" ⟨true, true⟩
              (RedisRegistry.new : RedisRegistry Nat) "T" 5).st
            (redisSubscribe c6tr "k" ⟨true, true⟩
              (RedisRegistry.new : RedisRegistry Nat) "T" 5).reg "T" 5).reg
          (fun _ _ => Except.ok ()) ⟨"c0", none, none⟩ "kchannel:T"
          (dumps (JValue.jobj []))).invoked.map RInvocation.handler).count 5 = 2 :=
  c6_double_subscribe InMemoryEventBus.new 0 5 ⟨0, 0⟩ (fun _ _ => Except.ok ())
    (by decide) rfl c6tr "k" "T" "kchannel:T" (dumps (JValue.jobj []))
    RedisRegistry.new ⟨true, true⟩ (fun _ _ => Except.ok ()) ⟨"c0", none, none⟩ [] 5
    rfl rfl rfl (by decide) rfl rfl

/-- An always-succeeding transport for the C7 scenario. -/
def c7tr : RedisTransport :=
  ⟨.ok, .ok, fun _ _ => .ok, fun _ _ => .ok, fun _ => .ok, fun _ => .ok⟩

/-- A Redis registry with handler 5 registered twice for type T. -/
def c7reg : RedisRegistry Nat :=
  (redisSubscribe c7tr "k"
    (redisSubscribe c7tr "k" ⟨true, true⟩ RedisRegistry.new "T" 5).st
    (redisSubscribe c7tr "k" ⟨true, true⟩ RedisRegistry.new "T" 5).reg "T" 5).reg

/-- Counterexample to C7 as stated: on the Redis bus, after a handler was
subscribed twice, one unsubscribe removes only one registration and a
subsequent message still invokes the handler. -/
theorem c7_counterexample :
    5 ∈ ((handle_message "k" (redisUnsubscribe c7tr "k" c7reg "T" 5).reg
        (fun _ _ => Except.ok ()) ⟨"c0", none, none⟩ "kchannel:T"
        (dumps (JValue.jobj []))).invoked.map RInvocation.handler) := by
  decide

/-- C7 amended: after unsubscribe(T, h), a publish of T delivers to exactly
the previously registered handlers with the first registration of h removed
— so h is never invoked whenever it held at most one registration (always
true on the in-memory bus, whose registry is duplicate-free); and
unsubscribing a never-registered handler or type returns normally, leaving
every registration unchanged, on both buses. -/
theorem c7_unsubscribe (bus : InMemoryEventBus τ κ) (T : τ) (h : κ) (e : MemEvent τ)
    (beh : κ → MemEvent τ → Except String Unit)
    (tr : RedisTransport) (keyPrefix tyName channel payload : String)
    (reg : RedisRegistry κ)
    (beh' : κ → List (String × JValue) → Except String Unit) (ctx : CorrelationContext)
    (d : List (String × JValue)) (h' : κ)
    (hnd : (dictGetD bus.subscribers T).Nodup) (heT : e.ty = T)
    (hkeys : (reg.handlers.map Prod.fst).Nodup)
    (hcnt : (dictGetD reg.handlers tyName).count h' ≤ 1)
    (hchan : String.mk (replaceAll (keyPrefix ++ "channel:").data [] channel.data) = tyName)
    (hdes : deserialize_event payload = .ok d) :
    ((publishInvs beh (bus.unsubscribe T h) e).map Invocation.handler
        = (dictGetD bus.subscribers T).erase h)
    ∧ h ∉ (publishInvs beh (bus.unsubscribe T h) e).map Invocation.handler
    ∧ ((handle_message keyPrefix (redisUnsubscribe tr keyPrefix reg tyName h').reg beh' ctx
          channel payload).invoked.map RInvocation.handler
        = (dictGetD reg.handlers tyName).erase h')
    ∧ h' ∉ ((handle_message keyPrefix (redisUnsubscribe tr keyPrefix reg tyName h').reg beh'
          ctx channel payload).invoked.map RInvocation.handler)
    ∧ (h ∉ dictGetD bus.subscribers T →
        ∀ t', dictGetD (bus.unsubscribe T h).subscribers t' = dictGetD bus.subscribers t')
    ∧ (h' ∉ dictGetD reg.handlers tyName →
        redisUnsubscribe tr keyPrefix reg tyName h' = ⟨reg, none⟩) := by
  have herase : ∀ (a : κ) (l : List κ), l.count a ≤ 1 → a ∉ l.erase a := by
    intro a l hle
    have h0 : (l.erase a).count a = 0 := by
      rw [List.count_erase_self]
      omega
    exact List.not_mem_of_count_eq_zero h0
  have hmm : (publishInvs beh (bus.unsubscribe T h) e).map Invocation.handler
      = (dictGetD bus.subscribers T).erase h := by
    rw [publishInvs_eq, heT, map_handler_invOf, unsubscribe_getD_self]
    by_cases hm : h ∈ dictGetD bus.subscribers T
    · rw [if_pos hm]
    · rw [if_neg hm, List.erase_of_not_mem hm]
  have hrr : ((handle_message keyPrefix (redisUnsubscribe tr keyPrefix reg tyName h').reg beh'
      ctx channel payload).invoked.map RInvocation.handler)
      = (dictGetD reg.handlers tyName).erase h' := by
    rw [handle_message_handlers keyPrefix tyName channel payload _ beh' ctx d hchan hdes]
    exact redisUnsubscribe_getD_self tr keyPrefix reg tyName h' hkeys
  refine ⟨hmm, ?_, hrr, ?_, ?_, ?_⟩
  · rw [hmm]
    exact herase h _ (List.nodup_iff_count_le_one.mp hnd h)
  · rw [hrr]
    exact herase h' _ hcnt
  · intro hm t'
    by_cases he : t' = T
    · subst he
      rw [unsubscribe_getD_self, if_neg hm]
    · exact unsubscribe_getD_ne bus T t' h he
  · intro hm
    by_cases hkey : dictHasKey reg.handlers tyName = true
    · simp [redisUnsubscribe, hkey, hm]
    · simp only [Bool.not_eq_true] at hkey
      simp [redisUnsubscribe, hkey]

/-- Witness for C7: handlers 5 and 8 registered once each; 5 unsubscribed. -/
theorem c7_witness :
    ((publishInvs (fun _ _ => Except.ok ())
        ((((InMemoryEventBus.new : InMemoryEventBus Nat Nat).subscribe 0 5).subscribe 0 8
          ).unsubscribe 0 5) ⟨0, 0⟩).map Invocation.handler
        = (dictGetD (((InMemoryEventBus.new : InMemoryEventBus Nat Nat).subscribe 0 5
            ).subscribe 0 8).subscribers 0).erase 5)
    ∧ 5 ∉ (publishInvs (fun _ _ => Except.ok ())
        ((((InMemoryEventBus.new : InMemoryEventBus Nat Nat).subscribe 0 5).subscribe 0 8
          ).unsubscribe 0 5) ⟨0, 0⟩).map Invocation.handler
    ∧ ((handle_message "k" (redisUnsubscribe c7tr "k"
            (⟨[("T", [5, 8])], [], false⟩ : RedisRegistry Nat) "T" 5).reg
          (fun _ _ => Except.ok ()) ⟨"c0", none, none⟩ "kchannel:T"
          (dumps (JValue.jobj []))).invoked.map RInvocation.handler
        = (dictGetD (⟨[("T", [5, 8])], [], false⟩ : RedisRegistry Nat).handlers "T").erase 5)
    ∧ 5 ∉ ((handle_message "k" (redisUnsubscribe c7tr "k"
            (⟨[("T", [5, 8])], [], false⟩ : RedisRegistry Nat) "T" 5).reg
          (fun _ _ => Except.ok ()) ⟨"c0", none, none⟩ "kchannel:T"
          (dumps (JValue.jobj []))).invoked.map RInvocation.handler)
    ∧ (5 ∉ dictGetD (((InMemoryEventBus.new : InMemoryEventBus Nat Nat).subscribe 0 5
          ).subscribe 0 8).subscribers 0 →
        ∀ t', dictGetD ((((InMemoryEventBus.new : InMemoryEventBus Nat Nat).subscribe 0 5
            ).subscribe 0 8).unsubscribe 0 5).subscribers t'
          = dictGetD (((InMemoryEventBus.new : InMemoryEventBus Nat Nat).subscribe 0 5
            ).subscribe 0 8).subscribers t')
    ∧ (5 ∉ dictGetD (⟨[("T", [5, 8])], [], false⟩ : RedisRegistry Nat).handlers "T" →
        redisUnsubscribe c7tr "k" (⟨[("T", [5, 8])], [], false⟩ : RedisRegistry Nat) "T" 5
          = ⟨(⟨[("T", [5, 8])], [], false⟩ : RedisRegistry Nat), none⟩) :=
  c7_unsubscribe (((InMemoryEventBus.new : InMemoryEventBus Nat Nat).subscribe 0 5
      ).subscribe 0 8) 0 5 ⟨0, 0⟩ (fun _ _ => Except.ok ()) c7tr "k" "T" "kchannel:T"
    (dumps (JValue.jobj [])) (⟨[("T", [5, 8])], [], false⟩ : RedisRegistry Nat)
    (fun _ _ => Except.ok ()) ⟨"c0", none, none⟩ [] 5 (by decide) rfl (by decide)
    (by decide) rfl rfl

/-- Counterexample to C9 as stated: a connection-establishment failure during
subscribe surfaces as the base EventBusError, which is not a
SubscriptionError. -/
theorem c9_counterexample :
    (redisSubscribe (⟨.ok, .raise (.connectionError "refused"), fun _ _ => .ok,
        fun _ _ => .ok, fun _ => .ok, fun _ => .ok⟩ : RedisTransport) "events:"
      ⟨false, false⟩ (RedisRegistry.new : RedisRegistry Nat) "T" 5).exc
      = some (.eventBusError "Redis connection failed: refused")
    ∧ PyExc.isSubscriptionError (.eventBusError "Redis connection failed: refused")
      = false :=
  ⟨rfl, rfl⟩

/-- C9 amended: when connection establishment fails during subscribe, the
failure surfaces to the caller as EventBusError (the taxonomy's base kind,
raised by _ensure_connection outside subscribe's try-block) — not as
SubscriptionError, and never as a raw transport exception. -/
theorem c9_subscribe_connect_failure (tr : RedisTransport) (keyPrefix : String)
    (st : RedisConnState) (reg : RedisRegistry κ) (tyName : String) (h : κ) (e0 : PyExc)
    (hcold : st.connected = false) (hfail : tr.connect = .raise e0) :
    (redisSubscribe tr keyPrefix st reg tyName h).exc
        = some (.eventBusError ("Redis connection failed: " ++ e0.msg))
    ∧ (∀ ex, (redisSubscribe tr keyPrefix st reg tyName h).exc = some ex →
        ex.isSubscriptionError = false ∧ ex.isEventBusError = true
        ∧ ex.isRedisError = false) := by
  have hens : ensure_connection tr st
      = .error (.eventBusError ("Redis connection failed: " ++ e0.msg)) := by
    simp [ensure_connection, connectNow, hcold, hfail]
  constructor
  · simp [redisSubscribe, hens]
  · intro ex hex
    simp only [redisSubscribe, hens] at hex
    simp only [Option.some_inj] at hex
    subst hex
    exact ⟨rfl, rfl, rfl⟩

/-- Witness for C9 on a refusing transport. -/
theorem c9_witness :
    (redisSubscribe (⟨.ok, .raise (.connectionError "refused"), fun _ _ => .ok,
        fun _ _ => .ok, fun _ => .ok, fun _ => .ok⟩ : RedisTransport) "events:"
      ⟨false, false⟩ (RedisRegistry.new : RedisRegistry Nat) "T" 5).exc
      = some (.eventBusError ("Redis connection failed: " ++ PyExc.msg
          (.connectionError "refused")))
    ∧ (∀ ex, (redisSubscribe (⟨.ok, .raise (.connectionError "refused"), fun _ _ => .ok,
        fun _ _ => .ok, fun _ => .ok, fun _ => .ok⟩ : RedisTransport) "events:"
        ⟨false, false⟩ (RedisRegistry.new : RedisRegistry Nat) "T" 5).exc = some ex →
        ex.isSubscriptionError = false ∧ ex.isEventBusError = true
        ∧ ex.isRedisError = false) :=
  c9_subscribe_connect_failure (⟨.ok, .raise (.connectionError "refused"), fun _ _ => .ok,
      fun _ _ => .ok, fun _ => .ok, fun _ => .ok⟩ : RedisTransport) "events:"
    ⟨false, false⟩ (RedisRegistry.new : RedisRegistry Nat) "T" 5
    (.connectionError "refused") rfl rfl

end AgentBus
